import Mathlib

/-!
WordMint-AI: order lifecycle, storage and routes — shallow embedding

This file embeds the order-processing core of the WordMint-AI repository in
Lean 4 and proves (or refutes) the frozen specification claims about it.

The embedding follows the TypeScript sources:
* `src/shared/schema.ts` — order record shape, status enum, request validation;
* `src/server/storage.ts` — the in-memory `MemStorage` order store;
* `src/server/routes/orders.ts` — order routes (create, process, export, settings);
* `src/server/routes/stripe.ts` — the Stripe webhook handler;
* `src/server/services/email.ts` — `sendEmail`;
* `src/server/config.ts` — configuration defaults.

Modelling conventions, stated once:
* JavaScript `Map` insertion-order semantics are modelled by a `List Order`
  with a replace-or-append `set` operation.
* Timestamps (`new Date()` / `Date.now()`) are logical `Nat` ticks carried in
  the store; a `tick` operation advances time between requests.
* Nullable columns that `MemStorage` initialises with sentinel values are
  modelled exactly as `MemStorage` stores them: `content : String` (absent is
  the empty string), `apiCost : Nat` (absent is `0`),
  `stripePaymentIntentId : String` (absent is the empty string).
* External I/O (OpenAI call, email delivery, Stripe signature verification)
  is modelled by passing the outcome of the external call as an explicit
  argument to the route function, mirroring the control flow of the handler.
-/

set_option linter.unusedVariables false

namespace WordMint

/-- Order status enum from `src/shared/schema.ts` (`OrderStatus`):
`pending`, `processing`, `complete`, `failed`. -/
inductive OrderStatus where
  | pending
  | processing
  | complete
  | failed
deriving DecidableEq, Repr

/-- Text of each status value as stored (`"pending"` etc.). -/
def statusText : OrderStatus → String
  | .pending => "pending"
  | .processing => "processing"
  | .complete => "complete"
  | .failed => "failed"

/-- The order record, per the `orders` table in `src/shared/schema.ts` as
materialised by `MemStorage` (`src/server/storage.ts`): `apiCost` and
`content` are initialised to `0` and `""` rather than left null, and
`stripePaymentIntentId` is the empty string until a payment is recorded. -/
structure Order where
  id : Nat
  status : OrderStatus
  topic : String
  wordCount : Nat
  price : Nat
  apiCost : Nat
  content : String
  customerEmail : String
  stripePaymentIntentId : String
  createdAt : Nat
  updatedAt : Nat
deriving DecidableEq, Repr

/-- The `InsertOrder` draft (fields picked by `insertOrderSchema`). -/
structure InsertOrder where
  topic : String
  wordCount : Nat
  price : Nat
  customerEmail : String
  stripePaymentIntentId : String
deriving DecidableEq, Repr

/-- The `UpdateOrder` partial record (fields picked by `updateOrderSchema`); a `none` field is a
field not present in the partial update object. -/
structure UpdateOrder where
  status : Option OrderStatus := none
  content : Option String := none
  apiCost : Option Nat := none
  stripePaymentIntentId : Option String := none
deriving DecidableEq, Repr

/-- The `settings.apiKeys` section (defaults from the `MemStorage` constructor). -/
structure ApiKeys where
  openaiApiKey : String
  stripeSecretKey : String
  stripeWebhookSecret : String
deriving DecidableEq, Repr

/-- The `settings.email` section. -/
structure EmailSettings where
  smtpHost : String
  smtpPort : String
  smtpUser : String
  smtpPassword : String
  senderEmail : String
deriving DecidableEq, Repr

/-- The `settings.pricing` section. -/
structure PricingSettings where
  pricePerWord : Nat
deriving DecidableEq, Repr

/-- The settings blob held by `MemStorage.settings`. -/
structure Settings where
  apiKeys : ApiKeys
  email : EmailSettings
  pricing : PricingSettings
deriving DecidableEq, Repr

/-- Default settings created by the `MemStorage` constructor
(`src/server/storage.ts`, constructor). -/
def defaultSettings : Settings :=
  { apiKeys := { openaiApiKey := "", stripeSecretKey := "", stripeWebhookSecret := "" }
    email := { smtpHost := "", smtpPort := "587", smtpUser := "", smtpPassword := ""
               senderEmail := "noreply@contentcraft.com" }
    pricing := { pricePerWord := 5 } }

/-- The configuration object of `src/server/config.ts`; only the fields the
order routes read are modelled. -/
structure Config where
  PRICE_PER_WORD_CENTS : Nat
  BASE_URL : String
deriving DecidableEq, Repr

/-- Config defaults (`config.ts` with an empty environment). -/
def defaultConfig : Config :=
  { PRICE_PER_WORD_CENTS := 5, BASE_URL := "http://localhost:5000" }

/-- The `MemStorage` store (`src/server/storage.ts`): the orders `Map` is a list in
insertion order, plus the id counter, settings and the logical clock. The
`users` map is not modelled; no claim mentions users. -/
structure MemStorage where
  orders : List Order
  orderIdCounter : Nat
  settings : Settings
  now : Nat
deriving DecidableEq, Repr

/-- The freshly constructed `MemStorage` (counter starts at 1, default
settings). -/
def initialStorage : MemStorage :=
  { orders := [], orderIdCounter := 1, settings := defaultSettings, now := 0 }

/-- JavaScript `Map.set` keyed by `Order.id`: replace the entry in place if
the key is present, otherwise append. -/
def setOrder (os : List Order) (o : Order) : List Order :=
  if os.any (fun x => x.id = o.id) then
    os.map (fun x => if x.id = o.id then o else x)
  else
    os ++ [o]

/-- Method `MemStorage.createOrder`: assign the next id, set status `pending`,
initialise `apiCost := 0` and `content := ""`, stamp both timestamps with the
current time, store, and bump the counter. -/
def createOrder (st : MemStorage) (order : InsertOrder) : Order × MemStorage :=
  let id := st.orderIdCounter
  let newOrder : Order :=
    { id := id
      status := .pending
      topic := order.topic
      wordCount := order.wordCount
      price := order.price
      apiCost := 0
      content := ""
      customerEmail := order.customerEmail
      stripePaymentIntentId := order.stripePaymentIntentId
      createdAt := st.now
      updatedAt := st.now }
  (newOrder, { st with orders := setOrder st.orders newOrder
                       orderIdCounter := st.orderIdCounter + 1 })

/-- Method `MemStorage.getOrder`: point lookup by id. -/
def getOrder (st : MemStorage) (id : Nat) : Option Order :=
  st.orders.find? (fun o => o.id = id)

/-- Method `MemStorage.getOrderByPaymentIntent`: first order whose
`stripePaymentIntentId` equals the given id. -/
def getOrderByPaymentIntent (st : MemStorage) (paymentIntentId : String) : Option Order :=
  st.orders.find? (fun o => o.stripePaymentIntentId = paymentIntentId)

/-- Spreading an `UpdateOrder` over an order (`{ ...order, ...updateData,
updatedAt: new Date() }`). -/
def applyUpdate (o : Order) (u : UpdateOrder) (t : Nat) : Order :=
  { o with status := u.status.getD o.status
           content := u.content.getD o.content
           apiCost := u.apiCost.getD o.apiCost
           stripePaymentIntentId := u.stripePaymentIntentId.getD o.stripePaymentIntentId
           updatedAt := t }

/-- Method `MemStorage.updateOrder`: look the order up; if absent return `none` and
leave the store untouched, else store the spread record. -/
def updateOrder (st : MemStorage) (id : Nat) (u : UpdateOrder) :
    Option Order × MemStorage :=
  match getOrder st id with
  | none => (none, st)
  | some o =>
      let o' := applyUpdate o u st.now
      (some o', { st with orders := setOrder st.orders o' })

/-- Method `MemStorage.getSettings` returns (a reference to) the stored settings. -/
def getSettings (st : MemStorage) : Settings :=
  st.settings

/-! ## Rendering of numbers (JavaScript template interpolation) -/

/-- Decimal digit character (codepoints 48–57). -/
def digitChar (n : Nat) : Char := Char.ofNat (48 + n)

/-- Fuel-driven decimal digit list of a natural number, most significant
digit first; `fuel = n + 1` always suffices. -/
def decimalAux : Nat → Nat → List Char
  | 0, _ => []
  | fuel + 1, n =>
      if n < 10 then [digitChar n]
      else decimalAux fuel (n / 10) ++ [digitChar (n % 10)]

/-- Decimal rendering of a natural number, modelling JavaScript
number-to-string conversion for non-negative integers. -/
def decimalStr (n : Nat) : String := String.mk (decimalAux (n + 1) n)

/-! ## Request validation (`createOrderRequestSchema`, `src/shared/schema.ts`) -/

/-- The apostrophe character (codepoint 39), admitted by the email local
part. -/
def apostrophe : Char := Char.ofNat 39

/-- Characters the zod email regex admits in the local part. -/
def emailLocalChar (c : Char) : Bool :=
  c.isAlphanum || c = '_' || c = apostrophe || c = '+' || c = '-' || c = '.'

/-- Characters the zod email regex admits as the final local-part
character. -/
def emailLocalLastChar (c : Char) : Bool :=
  c.isAlphanum || c = '_' || c = '+' || c = '-'

/-- Split a character list at every occurrence of a separator character. -/
def splitOnChar (sep : Char) : List Char → List (List Char)
  | [] => [[]]
  | c :: cs =>
      if c = sep then [] :: splitOnChar sep cs
      else
        match splitOnChar sep cs with
        | [] => [[c]]
        | f :: rest => (c :: f) :: rest

/-- Does the second list start with the first? -/
def startsWithList (pat s : List Char) : Bool :=
  match pat, s with
  | [], _ => true
  | _ :: _, [] => false
  | p :: ps, c :: cs => p = c && startsWithList ps cs

/-- Does the list contain the pattern as a contiguous sublist? -/
def containsList (pat : List Char) : List Char → Bool
  | [] => pat.isEmpty
  | c :: cs => startsWithList pat (c :: cs) || containsList pat cs

/-- One non-final domain label: leading alphanumeric, then alphanumerics or
hyphens. -/
def emailLabelOk (l : List Char) : Bool :=
  match l with
  | [] => false
  | c :: cs => c.isAlphanum && cs.all (fun d => d.isAlphanum || d = '-')

/-- The final domain label: at least two letters. -/
def emailTldOk (l : List Char) : Bool :=
  2 ≤ l.length && l.all Char.isAlpha

/-- Domain part: at least two dot-separated labels ending in a letter-only
label. -/
def emailDomainOk (d : List Char) : Bool :=
  match (splitOnChar '.' d).reverse with
  | [] => false
  | tld :: rest => !rest.isEmpty && emailTldOk tld && rest.all emailLabelOk

/-- Validation `z.string().email()` of the zod library, as used by
`createOrderRequestSchema`: exactly one `@`; a non-empty local part of
admitted characters not starting with a dot, not containing a double dot and
ending in a restricted character; a dotted domain ending in a two-plus-letter
label. (This embeds the zod v3 email regular expression.) -/
def emailOk (s : String) : Bool :=
  match splitOnChar '@' s.toList with
  | [l, d] =>
      !startsWithList ['.'] l &&
      !containsList ['.', '.'] l &&
      (match l.getLast? with
       | none => false
       | some c => emailLocalLastChar c) &&
      l.all emailLocalChar &&
      emailDomainOk d
  | _ => false

/-- Predicate for `createOrderRequestSchema.safeParse` success: topic at least 3
characters, wordCount in [100, 5000], valid email. -/
def createOrderValid (topic : String) (wordCount : Nat) (customerEmail : String) : Bool :=
  3 ≤ topic.length && 100 ≤ wordCount && wordCount ≤ 5000 && emailOk customerEmail

/-! ## Route result types -/

/-- An HTTP response: status code and (abbreviated) message body. -/
structure Resp where
  status : Nat
  body : String
deriving DecidableEq, Repr

/-- A notification attempt handed to `sendEmail` by a route; the per-template
`data` payload is not modelled (no claim depends on it). `recipient` models
the `to` field (`to` is a reserved token in Lean). -/
structure EmailMsg where
  recipient : String
  subject : String
  template : String
deriving DecidableEq, Repr

/-- Outcome of the external `generateContent` call (`services/openai.ts`):
the provider either yields text plus a cost in cents or the call throws. -/
inductive GenOutcome where
  | success (content : String) (cost : Nat)
  | failure (message : String)
deriving DecidableEq, Repr

/-- Result of `POST /api/orders/create`. -/
structure CreateResult where
  resp : Resp
  st : MemStorage
  orderId : Option Nat
deriving DecidableEq, Repr

/-- Result of `POST /api/orders/:id/process`: response, final store, emails
attempted, and how many times `generateContent` was invoked. -/
structure ProcessResult where
  resp : Resp
  st : MemStorage
  emails : List EmailMsg
  genCalls : Nat
deriving DecidableEq, Repr

/-- Result of `POST /api/webhook`: response, final store, emails attempted,
and whether the self-addressed `/process` call was dispatched. -/
structure WebhookResult where
  resp : Resp
  st : MemStorage
  emails : List EmailMsg
  processTriggered : Bool
deriving DecidableEq, Repr

/-! ## Order routes (`registerOrderRoutes`, src/unnamed/part_004) -/

/-- Route `POST /api/orders/create`: validate, price the order from settings with
the config fallback (`settings.pricing?.pricePerWord || config.PRICE_PER_WORD_CENTS`
— `0` is the only falsy `Nat`, and `MemStorage` always has a pricing
section), and create it in `pending` state with an empty payment intent. -/
def createOrderRoute (cfg : Config) (st : MemStorage)
    (topic : String) (wordCount : Nat) (customerEmail : String) : CreateResult :=
  if createOrderValid topic wordCount customerEmail then
    let settings := getSettings st
    let pricePerWord :=
      if settings.pricing.pricePerWord = 0 then cfg.PRICE_PER_WORD_CENTS
      else settings.pricing.pricePerWord
    let price := wordCount * pricePerWord
    let res := createOrder st
      { topic := topic, wordCount := wordCount, price := price
        customerEmail := customerEmail, stripePaymentIntentId := "" }
    { resp := { status := 200, body := "Order created successfully" }
      st := res.2, orderId := some res.1.id }
  else
    { resp := { status := 400, body := "Validation failed" }, st := st, orderId := none }

/-- Route `POST /api/orders/:id/process`: 404 when the order is unknown, 400 no-op
when its status is not `pending`; otherwise set `processing`, send the
in-progress email, invoke generation once, and on success set `complete`
together with `content` and `apiCost` (completed email), on failure set
`failed` (failure email). -/
def processOrderRoute (st : MemStorage) (orderId : Nat) (gen : GenOutcome) :
    ProcessResult :=
  match getOrder st orderId with
  | none =>
      { resp := { status := 404, body := "Order not found" }
        st := st, emails := [], genCalls := 0 }
  | some order =>
      if order.status ≠ .pending then
        { resp := { status := 400, body := "Order is already " ++ statusText order.status }
          st := st, emails := [], genCalls := 0 }
      else
        let st1 := (updateOrder st orderId { status := some .processing }).2
        let e1 : EmailMsg :=
          { recipient := order.customerEmail
            subject := "Your content order is being processed"
            template := "in-progress" }
        match gen with
        | .success content cost =>
            let st2 := (updateOrder st1 orderId
              { status := some .complete, content := some content, apiCost := some cost }).2
            let e2 : EmailMsg :=
              { recipient := order.customerEmail
                subject := "Your content is ready"
                template := "completed" }
            { resp := { status := 200, body := "Order processed successfully" }
              st := st2, emails := [e1, e2], genCalls := 1 }
        | .failure _ =>
            let st2 := (updateOrder st1 orderId { status := some .failed }).2
            let e2 : EmailMsg :=
              { recipient := order.customerEmail
                subject := "There was an issue with your content order"
                template := "failed" }
            { resp := { status := 500, body := "Content generation failed" }
              st := st2, emails := [e1, e2], genCalls := 1 }

/-! ## Stripe webhook (`registerStripeRoutes`, `src/server/routes/stripe.ts`) -/

/-- A verified Stripe event, as the switch in the webhook handler sees it.
`checkoutSessionCompleted` carries the parse of `session.metadata.orderId`
(`none` models the `isNaN` outcome) and the session's payment intent id. -/
inductive StripeEvent where
  | checkoutSessionCompleted (orderIdMeta : Option Nat) (paymentIntent : String)
  | paymentIntentPaymentFailed (paymentIntentId : String)
  | otherEvent
deriving DecidableEq, Repr

/-- The `checkout.session.completed` case: reject a bad order id, 404 an
unknown order; otherwise record the payment intent id on the order, attempt
the `received` email (addressed from the pre-update order record), and
dispatch the fire-and-forget `/process` call. Note: the handler never
inspects or changes `status`. -/
def handleCheckoutSessionCompleted (st : MemStorage) (orderIdMeta : Option Nat)
    (paymentIntent : String) : WebhookResult :=
  match orderIdMeta with
  | none =>
      { resp := { status := 400, body := "Invalid order ID" }
        st := st, emails := [], processTriggered := false }
  | some orderId =>
      match getOrder st orderId with
      | none =>
          { resp := { status := 404, body := "Order not found" }
            st := st, emails := [], processTriggered := false }
      | some order =>
          let st1 := (updateOrder st orderId
            { stripePaymentIntentId := some paymentIntent }).2
          let e : EmailMsg :=
            { recipient := order.customerEmail
              subject := "Order Received - Your Content is Being Generated"
              template := "received" }
          { resp := { status := 200, body := "received" }
            st := st1, emails := [e], processTriggered := true }

/-- The `payment_intent.payment_failed` case: look the order up by payment
intent id and, if found, set its status to `failed` (unconditionally — the
current status is not inspected) and attempt the payment-failed email. -/
def handlePaymentIntentPaymentFailed (st : MemStorage) (paymentIntentId : String) :
    WebhookResult :=
  match getOrderByPaymentIntent st paymentIntentId with
  | none =>
      { resp := { status := 200, body := "received" }
        st := st, emails := [], processTriggered := false }
  | some order =>
      let st1 := (updateOrder st order.id { status := some .failed }).2
      let e : EmailMsg :=
        { recipient := order.customerEmail
          subject := "Payment Failed for Your Content Order"
          template := "payment-failed" }
      { resp := { status := 200, body := "received" }
        st := st1, emails := [e], processTriggered := false }

/-- Route `POST /api/webhook`: `stripe.webhooks.constructEvent` either throws
(`Except.error`, modelling a signature that does not verify) — in which case
the handler returns 400 immediately, before any order lookup — or yields the
event routed through the switch. -/
def stripeWebhook (verification : Except String StripeEvent) (st : MemStorage) :
    WebhookResult :=
  match verification with
  | .error e =>
      { resp := { status := 400, body := "Webhook Error: " ++ e }
        st := st, emails := [], processTriggered := false }
  | .ok ev =>
      match ev with
      | .checkoutSessionCompleted meta paymentIntent =>
          handleCheckoutSessionCompleted st meta paymentIntent
      | .paymentIntentPaymentFailed paymentIntentId =>
          handlePaymentIntentPaymentFailed st paymentIntentId
      | .otherEvent =>
          { resp := { status := 200, body := "received" }
            st := st, emails := [], processTriggered := false }

/-! ## Listing (`MemStorage.getAllOrders`) -/

/-- Options of `getAllOrders` with the route defaults. The `dateFilter`
values `today`/`week`/`month` compute a cutoff date from the wall clock; the
cutoff itself is the modelled datum (`none` is `all`). -/
structure ListOptions where
  status : Option OrderStatus := none
  page : Nat := 1
  limit : Nat := 10
  search : String := ""
  dateFilter : Option Nat := none
deriving DecidableEq, Repr

/-- The `String.prototype.includes` check. -/
def strContains (s pat : String) : Bool :=
  containsList pat.toList s.toList

/-- The search predicate: case-insensitive match against the customer email
and the topic, and a plain match against the decimal id. -/
def matchesSearch (search : String) (o : Order) : Bool :=
  strContains o.customerEmail.toLower search.toLower ||
  strContains (decimalStr o.id) search ||
  strContains o.topic.toLower search.toLower

/-- Stable insertion of an order into a newest-first list: the order goes
before the first entry that is strictly older, after entries of equal
`createdAt` (matching the stable JavaScript sort with comparator
`b.createdAt - a.createdAt`). -/
def insertByCreatedAt (x : Order) : List Order → List Order
  | [] => [x]
  | y :: ys =>
      if y.createdAt ≤ x.createdAt then x :: y :: ys
      else y :: insertByCreatedAt x ys

/-- Stable newest-first sort (`filteredOrders.sort((a, b) => b.createdAt -
a.createdAt)`). -/
def sortNewestFirst : List Order → List Order
  | [] => []
  | x :: xs => insertByCreatedAt x (sortNewestFirst xs)

/-- Method `MemStorage.getAllOrders`: filter by status, search and date cutoff, sort
newest-created-first, then slice `[(page-1)*limit, page*limit)`; also return
the filtered total. -/
def getAllOrders (st : MemStorage) (options : ListOptions) : List Order × Nat :=
  let filtered := st.orders
  let filtered :=
    match options.status with
    | none => filtered
    | some s => filtered.filter (fun o => o.status = s)
  let filtered :=
    if options.search ≠ "" then filtered.filter (matchesSearch options.search)
    else filtered
  let filtered :=
    match options.dateFilter with
    | none => filtered
    | some startDate => filtered.filter (fun o => startDate ≤ o.createdAt)
  let sorted := sortNewestFirst filtered
  let startIndex := (options.page - 1) * options.limit
  ((sorted.drop startIndex).take options.limit, filtered.length)

/-! ## CSV export (`GET /api/orders/export`, src/unnamed/part_004) -/

/-- The escape `topic.replace(/"/g, '""')`: double every quote character. -/
def escQuotes : List Char → List Char
  | [] => []
  | c :: cs => if c = '\"' then '\"' :: '\"' :: escQuotes cs else c :: escQuotes cs

/-- JavaScript rendering of `n / 100` for a non-negative integer number of
cents: integer part, then at most two fractional digits with trailing zeros
dropped. -/
def jsDiv100 (n : Nat) : String :=
  let q := n / 100
  let r := n % 100
  if r = 0 then decimalStr q
  else if r % 10 = 0 then decimalStr q ++ "." ++ decimalStr (r / 10)
  else if r < 10 then decimalStr q ++ ".0" ++ decimalStr r
  else decimalStr q ++ "." ++ decimalStr r

/-- Rendering `new Date(order.createdAt).toISOString()` over logical timestamps:
rendered as the decimal tick followed by `Z`. Like a real ISO-8601 string it
contains no comma, quote or newline. -/
def isoTimestamp (t : Nat) : String := decimalStr t ++ "Z"

/-- The export's header line. -/
def csvHeader : String := "ID,Customer Email,Topic,Word Count,Status,Price,API Cost,Created At\n"

/-- One exported row: id, raw email, quote-escaped topic in quotes, word
count, status, price and API cost in dollars (`order.apiCost || 0` is the
identity on `Nat`), ISO creation date. Only the topic field is escaped. -/
def csvRow (o : Order) : String :=
  decimalStr o.id ++ "," ++ o.customerEmail ++ ",\"" ++
  String.mk (escQuotes o.topic.toList) ++ "\"," ++
  decimalStr o.wordCount ++ "," ++ statusText o.status ++ "," ++
  jsDiv100 o.price ++ "," ++ jsDiv100 o.apiCost ++ "," ++
  isoTimestamp o.createdAt ++ "\n"

/-- Route `GET /api/orders/export`: header plus one row per order of the first
1000 listed orders. -/
def exportOrdersCsv (st : MemStorage) : String :=
  csvHeader ++ String.join (((getAllOrders st { limit := 1000 }).1).map csvRow)

/-! ### A standard CSV reader, to state what "parses back" means -/

/-- Reads a quoted CSV field body after the opening quote: `""` is a literal
quote, a single quote closes the field. Returns the field and the remaining
input. -/
def parseQuoted : List Char → List Char × List Char
  | [] => ([], [])
  | c :: cs =>
      if c = '\"' then
        match cs with
        | [] => ([], [])
        | d :: cs' =>
            if d = '\"' then
              let r := parseQuoted cs'
              ('\"' :: r.1, r.2)
            else ([], cs)
      else
        let r := parseQuoted cs
        (c :: r.1, r.2)

/-- Characters an unquoted CSV field may continue with. -/
def unquotedChar (c : Char) : Bool := !(c = ',') && !(c = '\n')

/-- Reads one CSV field (quoted if it starts with a quote, else up to the
next comma or newline). -/
def parseField : List Char → List Char × List Char
  | [] => ([], [])
  | c :: cs =>
      if c = '\"' then parseQuoted cs
      else ((c :: cs).takeWhile unquotedChar, (c :: cs).dropWhile unquotedChar)

/-- Splits one row into fields; `fuel` bounds the number of fields (the
caller passes the row length plus one, which always suffices). -/
def parseFieldsAux : Nat → List Char → List (List Char)
  | 0, _ => []
  | fuel + 1, cs =>
      match parseField cs with
      | (f, cr) =>
          match cr with
          | ',' :: cs' => f :: parseFieldsAux fuel cs'
          | _ => [f]

/-- Parses one CSV row into its list of fields. -/
def parseCsvRow (s : String) : List String :=
  (parseFieldsAux (s.toList.length + 1) s.toList).map String.mk

/-- A character that survives a CSV round trip in an unquoted field: not a
comma, quote or newline. -/
def plainFieldChar (c : Char) : Bool :=
  !(c = ',') && !(c = '\"') && !(c = '\n')

/-! ## Notification client (`sendEmail`, src/unnamed/part_001) -/

/-- The environment `sendEmail` consults: `process.env.NODE_ENV` and the SMTP
transport configuration from `config`. -/
structure EnvConfig where
  nodeEnv : String
  smtpHost : String
  smtpUser : String
  smtpPassword : String
deriving DecidableEq, Repr

/-- Outcome of the underlying `transport.sendMail` call. -/
inductive DeliveryOutcome where
  | delivered
  | transportError (message : String)
deriving DecidableEq, Repr

/-- What `sendEmail` did, as reported through its log side channel. -/
inductive SendResult where
  | skippedDev
  | sentLogged
  | failureLogged (message : String)
deriving DecidableEq, Repr

/-- Function `sendEmail`: skip (and still return) when SMTP is unconfigured outside
production; otherwise attempt delivery inside a try/catch whose catch block
only logs. An `Except.error` result would model an exception escaping to the
caller; the function never produces one. -/
def sendEmail (env : EnvConfig) (msg : EmailMsg) (outcome : DeliveryOutcome) :
    Except String SendResult :=
  if env.nodeEnv ≠ "production" ∧
      (env.smtpHost = "" ∨ env.smtpUser = "" ∨ env.smtpPassword = "") then
    .ok .skippedDev
  else
    match outcome with
    | .delivered => .ok .sentLogged
    | .transportError m => .ok (.failureLogged m)

/-! ## Settings routes (src/unnamed/part_004) -/

/-- The 31-bullet mask written over non-empty API keys. -/
def apiKeyMask : String := "•••••••••••••••••••••••••••••••"

/-- The 13-bullet mask written over a non-empty SMTP password. -/
def smtpPasswordMask : String := "•••••••••••••"

/-- Route `GET /api/settings`: read the settings and mask the secrets. In the
source the handler assigns the masked `apiKeys` object and the masked
`smtpPassword` onto the very object `MemStorage.getSettings` returned — which
is the stored `this.settings` — so the store after the request holds the
masked values; the second component records that. -/
def getSettingsRoute (st : MemStorage) : Settings × MemStorage :=
  let settings := getSettings st
  let settings :=
    { settings with
        apiKeys :=
          { openaiApiKey :=
              if settings.apiKeys.openaiApiKey ≠ "" then apiKeyMask else ""
            stripeSecretKey :=
              if settings.apiKeys.stripeSecretKey ≠ "" then apiKeyMask else ""
            stripeWebhookSecret :=
              if settings.apiKeys.stripeWebhookSecret ≠ "" then apiKeyMask else "" } }
  let settings :=
    if settings.email.smtpPassword ≠ "" then
      { settings with email.smtpPassword := smtpPasswordMask }
    else settings
  (settings, { st with settings := settings })

/-- A full-section settings update as submitted by the three PATCH routes. -/
inductive SettingsPatch where
  | apiKeysPatch (openaiApiKey stripeSecretKey stripeWebhookSecret : String)
  | emailPatch (smtpHost smtpPort smtpUser smtpPassword senderEmail : String)
  | pricingPatch (pricePerWord : Nat)
deriving DecidableEq, Repr

/-- Method `MemStorage.updateSettings` for the three sections the PATCH routes
address (each route submits every field of its section). -/
def updateSettings (st : MemStorage) (p : SettingsPatch) : MemStorage :=
  match p with
  | .apiKeysPatch a b c =>
      { st with settings.apiKeys :=
          { openaiApiKey := a, stripeSecretKey := b, stripeWebhookSecret := c } }
  | .emailPatch h pt u pw s =>
      { st with settings.email :=
          { smtpHost := h, smtpPort := pt, smtpUser := u, smtpPassword := pw
            senderEmail := s } }
  | .pricingPatch ppw =>
      { st with settings.pricing := { pricePerWord := ppw } }

/-! ## The operation language: everything that can touch the store -/

/-- One incoming request, with the outcome of any external call it makes
supplied as data: order creation, a (verified or rejected) webhook delivery,
a `/process` invocation, a settings PATCH, a settings GET, or the passage of
time. -/
inductive Op where
  | createOp (topic : String) (wordCount : Nat) (customerEmail : String)
  | webhookOp (verification : Except String StripeEvent)
  | processOp (orderId : Nat) (gen : GenOutcome)
  | settingsPatchOp (patch : SettingsPatch)
  | getSettingsOp
  | tick
deriving Repr

/-- The store after one operation. -/
def applyOp (cfg : Config) (st : MemStorage) : Op → MemStorage
  | .createOp topic wordCount customerEmail =>
      (createOrderRoute cfg st topic wordCount customerEmail).st
  | .webhookOp verification => (stripeWebhook verification st).st
  | .processOp orderId gen => (processOrderRoute st orderId gen).st
  | .settingsPatchOp p => updateSettings st p
  | .getSettingsOp => (getSettingsRoute st).2
  | .tick => { st with now := st.now + 1 }

/-- The store after a sequence of operations. -/
def runOps (cfg : Config) : MemStorage → List Op → MemStorage
  | st, [] => st
  | st, op :: ops => runOps cfg (applyOp cfg st op) ops

/-- Well-formedness maintained by `MemStorage`: every stored id is below the
id counter (so a fresh id never collides with a stored order). -/
def WFStorage (st : MemStorage) : Prop :=
  ∀ o ∈ st.orders, o.id < st.orderIdCounter

instance (st : MemStorage) : Decidable (WFStorage st) := by
  unfold WFStorage; infer_instance

/-- The content/apiCost pairing invariant, in `MemStorage`'s sentinel
representation: `content` is the empty string exactly when `apiCost` is 0. -/
def contentCostPaired (st : MemStorage) : Prop :=
  ∀ o ∈ st.orders, (o.content = "" ↔ o.apiCost = 0)

instance (st : MemStorage) : Decidable (contentCostPaired st) := by
  unfold contentCostPaired; infer_instance

/-- An operation whose successful generation outcome (if any) has non-empty
content and a non-zero cost. -/
def goodGen : Op → Prop
  | .processOp _ (.success content cost) => content ≠ "" ∧ cost ≠ 0
  | _ => True

instance (op : Op) : Decidable (goodGen op) := by
  cases op with
  | processOp orderId gen => cases gen <;> (unfold goodGen; infer_instance)
  | _ => exact .isTrue trivial

/-! ## The specification's five-state view -/

/-- The five order states named by the specification. -/
inductive SpecState where
  | Created
  | PaymentConfirmed
  | Processing
  | Complete
  | Failed
deriving DecidableEq, Repr

/-- Modelled from the spec: the refinement mapping from implementation
records to the specification's five states. The implementation has no
`PaymentConfirmed` status value; the spec's `Created → PaymentConfirmed`
transition corresponds to recording `stripePaymentIntentId` on a `pending`
order, so a `pending` order is `Created` while its payment reference is
still empty and `PaymentConfirmed` once it is set. -/
def specState (o : Order) : SpecState :=
  match o.status with
  | .pending => if o.stripePaymentIntentId = "" then .Created else .PaymentConfirmed
  | .processing => .Processing
  | .complete => .Complete
  | .failed => .Failed

/-! ## Concrete fixtures used by the counterexamples and witnesses -/

/-- A freshly created order record with id and creation tick `i` (what
`MemStorage.createOrder` stores for a valid request at time `i`). -/
def mkSeedOrder (i : Nat) : Order :=
  { id := i, status := .pending, topic := "solar panels", wordCount := 100
    price := 500, apiCost := 0, content := "", customerEmail := "a@b.com"
    stripePaymentIntentId := "", createdAt := i, updatedAt := i }

/-- A store holding one freshly created (unpaid, `pending`) order. -/
def oneOrderStore : MemStorage :=
  { orders := [mkSeedOrder 1], orderIdCounter := 2, settings := defaultSettings
    now := 1 }

/-- A store holding one completed, paid order. -/
def completeOrderStore : MemStorage :=
  { orders := [{ mkSeedOrder 1 with
                   status := .complete, stripePaymentIntentId := "pi_1"
                   content := "Finished article.", apiCost := 120 }]
    orderIdCounter := 2, settings := defaultSettings, now := 5 }

/-- A store whose settings have `pricePerWord = 0` (reachable through
`PATCH /api/settings/pricing`, which performs no validation). -/
def zeroPriceStore : MemStorage :=
  { initialStorage with settings := { defaultSettings with pricing := { pricePerWord := 0 } } }

/-- A store with non-empty secrets in its settings. -/
def secretsStore : MemStorage :=
  { initialStorage with
      settings :=
        { apiKeys := { openaiApiKey := "sk-live-123", stripeSecretKey := "sk-stripe-456"
                       stripeWebhookSecret := "whsec-789" }
          email := { defaultSettings.email with smtpPassword := "hunter2" }
          pricing := { pricePerWord := 5 } } }

/-- Fifteen stored orders with creation times 1..15 (order `i` created at
tick `i`). -/
def fifteenOrderStore : MemStorage :=
  { orders := (List.range 15).map (fun i => mkSeedOrder (i + 1))
    orderIdCounter := 16, settings := defaultSettings, now := 16 }

/-- The same store after a sixteenth order is inserted (at tick 16). -/
def sixteenOrderStore : MemStorage :=
  (createOrder fifteenOrderStore
    { topic := "solar panels", wordCount := 100, price := 500
      customerEmail := "a@b.com", stripePaymentIntentId := "" }).2

/-- An order whose customer email embeds a comma (as a record, exercising the
export function the claim describes). -/
def commaEmailOrder : Order :=
  { mkSeedOrder 1 with customerEmail := "a,b@c.com", topic := "Solar panels" }

/-- Delivering the same `checkout.session.completed` event twice in immediate
succession: the results of the first and second webhook invocation. -/
def webhookTwice (st : MemStorage) (id : Nat) (ref : String) :
    WebhookResult × WebhookResult :=
  let ev : Except String StripeEvent := .ok (.checkoutSessionCompleted (some id) ref)
  let r1 := stripeWebhook ev st
  (r1, stripeWebhook ev r1.st)

/-- Invoking `/process` twice in immediate succession on the same order. -/
def processTwice (st : MemStorage) (id : Nat) (gen gen2 : GenOutcome) :
    ProcessResult × ProcessResult :=
  let r1 := processOrderRoute st id gen
  (r1, processOrderRoute r1.st id gen2)

/-- First delivery of the payment-succeeded event against the one-order
store. -/
def c1FirstResult : WebhookResult :=
  stripeWebhook (.ok (.checkoutSessionCompleted (some 1) "pi_1")) oneOrderStore

/-- Second delivery of the same event, one tick later. -/
def c1SecondResult : WebhookResult :=
  stripeWebhook (.ok (.checkoutSessionCompleted (some 1) "pi_1"))
    { c1FirstResult.st with now := 2 }

/-- A `payment_intent.payment_failed` delivery against the store holding a
completed order whose payment reference matches. -/
def c2FailedResult : WebhookResult :=
  stripeWebhook (.ok (.paymentIntentPaymentFailed "pi_1")) completeOrderStore

/-- Fixture: `/process` invoked on a freshly created (unpaid) order, with the
generation call succeeding. -/
def c3ProcessResult : ProcessResult :=
  processOrderRoute oneOrderStore 1 (.success "Generated text." 120)

/-- Fixture: `POST /api/orders/create` with a valid request against the store whose
settings hold `pricePerWord = 0`. -/
def c4CreateResult : CreateResult :=
  createOrderRoute defaultConfig zeroPriceStore "solar panels" 100 "a@b.com"

/-- A reachable trace: create an order, confirm its payment, then process it
with a generation outcome whose reported cost is zero. -/
def c5TraceStore : MemStorage :=
  runOps defaultConfig initialStorage
    [.createOp "solar panels" 500 "a@b.com", .tick,
     .webhookOp (.ok (.checkoutSessionCompleted (some 1) "pi_9")), .tick,
     .processOp 1 (.success "Generated article text." 0)]

/-! ## Storage lemmas -/

theorem applyUpdate_id (o : Order) (u : UpdateOrder) (t : Nat) :
    (applyUpdate o u t).id = o.id := rfl

theorem mem_setOrder {x : Order} {os : List Order} {o : Order}
    (h : x ∈ setOrder os o) : x = o ∨ x ∈ os := by
  unfold setOrder at h
  by_cases hc : os.any (fun y => y.id = o.id)
  · rw [if_pos hc] at h
    obtain ⟨y, hy, hxy⟩ := List.mem_map.mp h
    by_cases hid : y.id = o.id
    · simp only [hid, if_pos] at hxy
      exact Or.inl hxy.symm
    · simp only [hid, if_neg, ite_false] at hxy
      exact Or.inr (hxy ▸ hy)
  · rw [if_neg hc] at h
    rcases List.mem_append.mp h with h' | h'
    · exact Or.inr h'
    · exact Or.inl (List.mem_singleton.mp h')

theorem find?_map_replace_eq (l : List Order) (id : Nat) (o' : Order)
    (ho : o'.id = id) (hs : (l.find? (fun x => x.id = id)).isSome = true) :
    (l.map (fun x => if x.id = id then o' else x)).find? (fun x => x.id = id)
      = some o' := by
  induction l with
  | nil => simp [List.find?] at hs
  | cons y ys ih =>
      by_cases hy : y.id = id
      · simp [List.find?, hy, ho]
      · simp only [List.map_cons, if_neg hy]
        rw [List.find?_cons_of_neg _ (by simpa using hy)]
        rw [List.find?_cons_of_neg _ (by simpa using hy)] at hs
        exact ih hs

theorem find?_map_replace_ne (l : List Order) (id' id : Nat) (o' : Order)
    (ho : o'.id = id') (hne : id' ≠ id) :
    (l.map (fun x => if x.id = id' then o' else x)).find? (fun x => x.id = id)
      = l.find? (fun x => x.id = id) := by
  induction l with
  | nil => rfl
  | cons y ys ih =>
      by_cases hy : y.id = id'
      · have hyid : ¬ y.id = id := by rw [hy]; exact hne
        simp only [List.map_cons, if_pos hy]
        rw [List.find?_cons_of_neg _ (by simpa [ho] using hne),
            List.find?_cons_of_neg _ (by simpa using hyid)]
        exact ih
      · simp only [List.map_cons, if_neg hy]
        by_cases hyid : y.id = id
        · rw [List.find?_cons_of_pos _ (by simpa using hyid),
              List.find?_cons_of_pos _ (by simpa using hyid)]
        · rw [List.find?_cons_of_neg _ (by simpa using hyid),
              List.find?_cons_of_neg _ (by simpa using hyid)]
          exact ih

theorem getOrder_updateOrder_self {st : MemStorage} {id : Nat} {o : Order}
    (u : UpdateOrder) (h : getOrder st id = some o) :
    getOrder (updateOrder st id u).2 id = some (applyUpdate o u st.now) := by
  have hoid : o.id = id := by
    have := List.find?_some h
    simpa using this
  unfold updateOrder
  rw [h]
  simp only [getOrder]
  unfold setOrder
  have hany : st.orders.any (fun y => y.id = (applyUpdate o u st.now).id) = true := by
    rw [applyUpdate_id, hoid]
    exact List.any_eq_true.mpr ⟨o, List.mem_of_find?_eq_some h, by simpa using hoid⟩
  rw [if_pos hany, applyUpdate_id, hoid]
  exact find?_map_replace_eq _ _ _ (by rw [applyUpdate_id, hoid])
    (by unfold getOrder at h; rw [h]; rfl)

theorem getOrder_updateOrder_ne {st : MemStorage} (id' : Nat) (u : UpdateOrder)
    {id : Nat} (hne : id' ≠ id) :
    getOrder (updateOrder st id' u).2 id = getOrder st id := by
  unfold updateOrder
  cases h : getOrder st id' with
  | none => rfl
  | some o =>
      have hoid : o.id = id' := by
        have := List.find?_some h
        simpa using this
      simp only [getOrder]
      unfold setOrder
      have hany : st.orders.any (fun y => y.id = (applyUpdate o u st.now).id) = true := by
        rw [applyUpdate_id, hoid]
        exact List.any_eq_true.mpr ⟨o, List.mem_of_find?_eq_some h, by simpa using hoid⟩
      rw [if_pos hany, applyUpdate_id, hoid]
      exact find?_map_replace_ne _ _ _ _ (by rw [applyUpdate_id, hoid]) hne

theorem updateOrder_now (st : MemStorage) (id : Nat) (u : UpdateOrder) :
    (updateOrder st id u).2.now = st.now := by
  unfold updateOrder
  cases getOrder st id <;> rfl

theorem updateOrder_counter (st : MemStorage) (id : Nat) (u : UpdateOrder) :
    (updateOrder st id u).2.orderIdCounter = st.orderIdCounter := by
  unfold updateOrder
  cases getOrder st id <;> rfl

theorem mem_updateOrder {x : Order} {st : MemStorage} {id : Nat} {u : UpdateOrder}
    (h : x ∈ (updateOrder st id u).2.orders) :
    x ∈ st.orders ∨ ∃ y ∈ st.orders, x = applyUpdate y u st.now := by
  unfold updateOrder at h
  cases ho : getOrder st id with
  | none => rw [ho] at h; exact Or.inl h
  | some o =>
      rw [ho] at h
      rcases mem_setOrder h with h' | h'
      · exact Or.inr ⟨o, List.mem_of_find?_eq_some ho, h'⟩
      · exact Or.inl h'

theorem createOrder_orders {st : MemStorage} (ins : InsertOrder)
    (hwf : WFStorage st) :
    (createOrder st ins).2.orders = st.orders ++ [(createOrder st ins).1] := by
  unfold createOrder
  simp only []
  unfold setOrder
  have hany : st.orders.any (fun y => y.id = st.orderIdCounter) = false := by
    rw [List.any_eq_false]
    intro x hx
    have := hwf x hx
    simp only [decide_eq_true_eq]
    omega
  rw [if_neg (by rw [hany]; exact Bool.false_ne_true)]

theorem getOrder_createOrder_preserve {st : MemStorage} {id : Nat} {o : Order}
    (ins : InsertOrder) (hwf : WFStorage st) (h : getOrder st id = some o) :
    getOrder (createOrder st ins).2 id = some o := by
  simp only [getOrder] at h ⊢
  rw [createOrder_orders ins hwf, List.find?_append, h]
  rfl

theorem WF_createOrder {st : MemStorage} (ins : InsertOrder) (hwf : WFStorage st) :
    WFStorage (createOrder st ins).2 := by
  intro x hx
  rw [createOrder_orders ins hwf] at hx
  have hcounter : (createOrder st ins).2.orderIdCounter = st.orderIdCounter + 1 := rfl
  rw [hcounter]
  rcases List.mem_append.mp hx with h' | h'
  · have := hwf x h'
    omega
  · have : x = (createOrder st ins).1 := List.mem_singleton.mp h'
    have hid : (createOrder st ins).1.id = st.orderIdCounter := rfl
    rw [this, hid]
    omega

theorem WF_updateOrder {st : MemStorage} (id : Nat) (u : UpdateOrder)
    (hwf : WFStorage st) : WFStorage (updateOrder st id u).2 := by
  intro x hx
  rw [updateOrder_counter]
  rcases mem_updateOrder hx with h' | ⟨y, hy, hxy⟩
  · exact hwf x h'
  · rw [hxy, applyUpdate_id]
    exact hwf y hy

/-! ## Preservation lemmas over the operation language -/

theorem WF_applyOp (cfg : Config) (op : Op) {st : MemStorage}
    (hwf : WFStorage st) : WFStorage (applyOp cfg st op) := by
  cases op with
  | createOp t w e =>
      simp only [applyOp, createOrderRoute]
      by_cases hv : createOrderValid t w e = true
      · rw [if_pos hv]
        exact WF_createOrder _ hwf
      · rw [if_neg hv]
        exact hwf
  | webhookOp v =>
      cases v with
      | error e => exact hwf
      | ok ev =>
          cases ev with
          | checkoutSessionCompleted meta paymentIntent =>
              cases meta with
              | none => exact hwf
              | some oid =>
                  simp only [applyOp, stripeWebhook, handleCheckoutSessionCompleted]
                  cases h : getOrder st oid with
                  | none => simp only [h]; exact hwf
                  | some o => simp only [h]; exact WF_updateOrder _ _ hwf
          | paymentIntentPaymentFailed pid =>
              simp only [applyOp, stripeWebhook, handlePaymentIntentPaymentFailed]
              cases h : getOrderByPaymentIntent st pid with
              | none => simp only [h]; exact hwf
              | some o => simp only [h]; exact WF_updateOrder _ _ hwf
          | otherEvent => exact hwf
  | processOp oid gen =>
      simp only [applyOp, processOrderRoute]
      cases h : getOrder st oid with
      | none => simp only [h]; exact hwf
      | some o =>
          simp only [h]
          split
          · exact hwf
          · cases gen with
            | success content cost =>
                exact WF_updateOrder _ _ (WF_updateOrder _ _ hwf)
            | failure m =>
                exact WF_updateOrder _ _ (WF_updateOrder _ _ hwf)
  | settingsPatchOp p => cases p <;> exact hwf
  | getSettingsOp => exact hwf
  | tick => exact hwf

theorem status_step (cfg : Config) (op : Op) {st : MemStorage} {id : Nat}
    {o : Order} (hwf : WFStorage st) (h : getOrder st id = some o)
    (hterm : o.status = .complete ∨ o.status = .failed) :
    ∃ o', getOrder (applyOp cfg st op) id = some o' ∧
      (o'.status = .complete ∨ o'.status = .failed) ∧
      (o.status = .failed → o'.status = .failed) := by
  cases op with
  | createOp t w e =>
      simp only [applyOp, createOrderRoute]
      by_cases hv : createOrderValid t w e = true
      · rw [if_pos hv]
        exact ⟨o, getOrder_createOrder_preserve _ hwf h, hterm, fun hf => hf⟩
      · rw [if_neg hv]
        exact ⟨o, h, hterm, fun hf => hf⟩
  | webhookOp v =>
      cases v with
      | error e => exact ⟨o, h, hterm, fun hf => hf⟩
      | ok ev =>
          cases ev with
          | checkoutSessionCompleted meta paymentIntent =>
              cases meta with
              | none => exact ⟨o, h, hterm, fun hf => hf⟩
              | some oid =>
                  simp only [applyOp, stripeWebhook, handleCheckoutSessionCompleted]
                  cases hoid : getOrder st oid with
                  | none => simp only [hoid]; exact ⟨o, h, hterm, fun hf => hf⟩
                  | some ord =>
                      simp only [hoid]
                      by_cases heq : oid = id
                      · subst heq
                        have hord : ord = o := by rw [h] at hoid; injection hoid with hh; exact hh.symm
                        refine ⟨applyUpdate o { stripePaymentIntentId := some paymentIntent } st.now,
                          getOrder_updateOrder_self _ h, ?_, ?_⟩
                        · have : (applyUpdate o { stripePaymentIntentId := some paymentIntent } st.now).status = o.status := rfl
                          rw [this]; exact hterm
                        · intro hf; exact hf
                      · exact ⟨o, by rw [getOrder_updateOrder_ne oid _ heq]; exact h,
                          hterm, fun hf => hf⟩
          | paymentIntentPaymentFailed pid =>
              simp only [applyOp, stripeWebhook, handlePaymentIntentPaymentFailed]
              cases hpf : getOrderByPaymentIntent st pid with
              | none => simp only [hpf]; exact ⟨o, h, hterm, fun hf => hf⟩
              | some ord =>
                  simp only [hpf]
                  by_cases heq : ord.id = id
                  · rw [heq]
                    refine ⟨applyUpdate o { status := some .failed } st.now,
                      getOrder_updateOrder_self _ h, Or.inr rfl, fun _ => rfl⟩
                  · exact ⟨o, by rw [getOrder_updateOrder_ne ord.id _ heq]; exact h,
                      hterm, fun hf => hf⟩
          | otherEvent => exact ⟨o, h, hterm, fun hf => hf⟩
  | processOp oid gen =>
      simp only [applyOp, processOrderRoute]
      cases hp : getOrder st oid with
      | none => simp only [hp]; exact ⟨o, h, hterm, fun hf => hf⟩
      | some ord =>
          simp only [hp]
          by_cases heq : oid = id
          · subst heq
            have hord : ord = o := by rw [h] at hp; injection hp with hh; exact hh.symm
            have hnp : ord.status ≠ .pending := by
              rw [hord]
              rcases hterm with h1 | h1 <;> rw [h1] <;> intro hc <;> exact absurd hc (by intro hcc; cases hcc)
            rw [if_pos hnp]
            exact ⟨o, h, hterm, fun hf => hf⟩
          · split
            · exact ⟨o, h, hterm, fun hf => hf⟩
            · cases gen with
              | success content cost =>
                  refine ⟨o, ?_, hterm, fun hf => hf⟩
                  rw [getOrder_updateOrder_ne oid _ heq, getOrder_updateOrder_ne oid _ heq]
                  exact h
              | failure m =>
                  refine ⟨o, ?_, hterm, fun hf => hf⟩
                  rw [getOrder_updateOrder_ne oid _ heq, getOrder_updateOrder_ne oid _ heq]
                  exact h
  | settingsPatchOp p => cases p <;> exact ⟨o, h, hterm, fun hf => hf⟩
  | getSettingsOp => exact ⟨o, h, hterm, fun hf => hf⟩
  | tick => exact ⟨o, h, hterm, fun hf => hf⟩

theorem status_run (cfg : Config) (ops : List Op) {st : MemStorage} {id : Nat}
    {o : Order} (hwf : WFStorage st) (h : getOrder st id = some o)
    (hterm : o.status = .complete ∨ o.status = .failed) :
    ∃ o', getOrder (runOps cfg st ops) id = some o' ∧
      (o'.status = .complete ∨ o'.status = .failed) ∧
      (o.status = .failed → o'.status = .failed) := by
  induction ops generalizing st o with
  | nil => exact ⟨o, h, hterm, fun hf => hf⟩
  | cons op ops ih =>
      obtain ⟨o1, h1, hterm1, hf1⟩ := status_step cfg op hwf h hterm
      obtain ⟨o2, h2, hterm2, hf2⟩ := ih (WF_applyOp cfg op hwf) h1 hterm1
      exact ⟨o2, h2, hterm2, fun hf => hf2 (hf1 hf)⟩

/-! ## The content/apiCost pairing invariant -/

theorem applyUpdate_content_frame {u : UpdateOrder} (y : Order) (t : Nat)
    (hc : u.content = none) : (applyUpdate y u t).content = y.content := by
  simp [applyUpdate, hc]

theorem applyUpdate_apiCost_frame {u : UpdateOrder} (y : Order) (t : Nat)
    (hk : u.apiCost = none) : (applyUpdate y u t).apiCost = y.apiCost := by
  simp [applyUpdate, hk]

theorem paired_updateOrder_frame {st : MemStorage} {u : UpdateOrder}
    (id : Nat) (hinv : contentCostPaired st) (hc : u.content = none)
    (hk : u.apiCost = none) : contentCostPaired (updateOrder st id u).2 := by
  intro x hx
  rcases mem_updateOrder hx with h' | ⟨y, hy, hxy⟩
  · exact hinv x h'
  · rw [hxy, applyUpdate_content_frame y _ hc, applyUpdate_apiCost_frame y _ hk]
    exact hinv y hy

theorem paired_updateOrder_set {st : MemStorage} {u : UpdateOrder} {c : String}
    {k : Nat} (id : Nat) (hinv : contentCostPaired st) (hc : u.content = some c)
    (hk : u.apiCost = some k) (hck : c = "" ↔ k = 0) :
    contentCostPaired (updateOrder st id u).2 := by
  intro x hx
  rcases mem_updateOrder hx with h' | ⟨y, hy, hxy⟩
  · exact hinv x h'
  · have h1 : (applyUpdate y u st.now).content = c := by simp [applyUpdate, hc]
    have h2 : (applyUpdate y u st.now).apiCost = k := by simp [applyUpdate, hk]
    rw [hxy, h1, h2]
    exact hck

theorem paired_step (cfg : Config) (op : Op) {st : MemStorage}
    (hinv : contentCostPaired st) (hg : goodGen op) :
    contentCostPaired (applyOp cfg st op) := by
  cases op with
  | createOp t w e =>
      simp only [applyOp, createOrderRoute]
      by_cases hv : createOrderValid t w e = true
      · rw [if_pos hv]
        intro x hx
        rcases mem_setOrder hx with h' | h'
        · rw [h']
          exact ⟨fun _ => rfl, fun _ => rfl⟩
        · exact hinv x h'
      · rw [if_neg hv]
        exact hinv
  | webhookOp v =>
      cases v with
      | error e => exact hinv
      | ok ev =>
          cases ev with
          | checkoutSessionCompleted meta paymentIntent =>
              cases meta with
              | none => exact hinv
              | some oid =>
                  simp only [applyOp, stripeWebhook, handleCheckoutSessionCompleted]
                  cases h : getOrder st oid with
                  | none => simp only [h]; exact hinv
                  | some o =>
                      simp only [h]
                      exact paired_updateOrder_frame _ hinv rfl rfl
          | paymentIntentPaymentFailed pid =>
              simp only [applyOp, stripeWebhook, handlePaymentIntentPaymentFailed]
              cases h : getOrderByPaymentIntent st pid with
              | none => simp only [h]; exact hinv
              | some o =>
                  simp only [h]
                  exact paired_updateOrder_frame _ hinv rfl rfl
          | otherEvent => exact hinv
  | processOp oid gen =>
      simp only [applyOp, processOrderRoute]
      cases h : getOrder st oid with
      | none => simp only [h]; exact hinv
      | some o =>
          simp only [h]
          split
          · exact hinv
          · cases gen with
            | success content cost =>
                obtain ⟨hc, hk⟩ := hg
                exact paired_updateOrder_set _
                  (paired_updateOrder_frame _ hinv rfl rfl) rfl rfl
                  ⟨fun hcc => absurd hcc hc, fun hkk => absurd hkk hk⟩
            | failure m =>
                exact paired_updateOrder_frame _
                  (paired_updateOrder_frame _ hinv rfl rfl) rfl rfl
  | settingsPatchOp p => cases p <;> exact hinv
  | getSettingsOp => exact hinv
  | tick => exact hinv

theorem paired_run (cfg : Config) (ops : List Op) {st : MemStorage}
    (hinv : contentCostPaired st) (hg : ∀ op ∈ ops, goodGen op) :
    contentCostPaired (runOps cfg st ops) := by
  induction ops generalizing st with
  | nil => exact hinv
  | cons op ops ih =>
      exact ih (paired_step cfg op hinv (hg op (List.mem_cons_self op ops)))
        (fun op' h' => hg op' (List.mem_cons_of_mem op h'))

/-! ## Sortedness of the listing -/

theorem mem_insertByCreatedAt {z x : Order} {l : List Order}
    (h : z ∈ insertByCreatedAt x l) : z = x ∨ z ∈ l := by
  induction l with
  | nil => simpa [insertByCreatedAt] using h
  | cons y ys ih =>
      rw [insertByCreatedAt] at h
      by_cases hc : y.createdAt ≤ x.createdAt
      · rw [if_pos hc] at h
        rcases List.mem_cons.mp h with rfl | h'
        · exact Or.inl rfl
        · exact Or.inr h'
      · rw [if_neg hc] at h
        rcases List.mem_cons.mp h with rfl | h'
        · exact Or.inr (List.mem_cons_self _ _)
        · rcases ih h' with h'' | h''
          · exact Or.inl h''
          · exact Or.inr (List.mem_cons_of_mem _ h'')

theorem pairwise_insertByCreatedAt (x : Order) (l : List Order)
    (h : l.Pairwise (fun a b => b.createdAt ≤ a.createdAt)) :
    (insertByCreatedAt x l).Pairwise (fun a b => b.createdAt ≤ a.createdAt) := by
  induction l with
  | nil => simp [insertByCreatedAt]
  | cons y ys ih =>
      rw [insertByCreatedAt]
      obtain ⟨hy, hys⟩ := List.pairwise_cons.mp h
      by_cases hc : y.createdAt ≤ x.createdAt
      · rw [if_pos hc]
        refine List.pairwise_cons.mpr ⟨?_, h⟩
        intro z hz
        rcases List.mem_cons.mp hz with rfl | hz'
        · exact hc
        · have := hy z hz'
          omega
      · rw [if_neg hc]
        refine List.pairwise_cons.mpr ⟨?_, ih hys⟩
        intro z hz
        rcases mem_insertByCreatedAt hz with rfl | hz'
        · omega
        · exact hy z hz'

theorem pairwise_sortNewestFirst (l : List Order) :
    (sortNewestFirst l).Pairwise (fun a b => b.createdAt ≤ a.createdAt) := by
  induction l with
  | nil => simp [sortNewestFirst]
  | cons x xs ih => exact pairwise_insertByCreatedAt x _ ih

/-! ## CSV round-trip lemmas -/

theorem strToList_append (a b : String) : (a ++ b).toList = a.toList ++ b.toList := by
  simp [String.toList, String.data_append]

theorem strToList_mk (l : List Char) : (String.mk l).toList = l := rfl

theorem digitChar_plain (m : Nat) (hm : m < 10) : plainFieldChar (digitChar m) = true := by
  interval_cases m <;> decide

theorem decimalAux_plain (fuel n : Nat) :
    ∀ c ∈ decimalAux fuel n, plainFieldChar c = true := by
  induction fuel generalizing n with
  | zero => intro c hc; simp [decimalAux] at hc
  | succ fuel ih =>
      intro c hc
      rw [decimalAux] at hc
      by_cases hn : n < 10
      · rw [if_pos hn] at hc
        rw [List.mem_singleton.mp hc]
        exact digitChar_plain n hn
      · rw [if_neg hn] at hc
        rcases List.mem_append.mp hc with h' | h'
        · exact ih _ c h'
        · rw [List.mem_singleton.mp h']
          exact digitChar_plain _ (Nat.mod_lt _ (by omega))

theorem decimalStr_plain (n : Nat) :
    ∀ c ∈ (decimalStr n).toList, plainFieldChar c = true :=
  decimalAux_plain (n + 1) n

theorem string_plain_append {a b : String}
    (ha : ∀ c ∈ a.toList, plainFieldChar c = true)
    (hb : ∀ c ∈ b.toList, plainFieldChar c = true) :
    ∀ c ∈ (a ++ b).toList, plainFieldChar c = true := by
  intro c hc
  rw [strToList_append] at hc
  rcases List.mem_append.mp hc with h | h
  exacts [ha c h, hb c h]

theorem dot_plain : ∀ c ∈ (".").toList, plainFieldChar c = true := by decide

theorem dotZero_plain : ∀ c ∈ (".0").toList, plainFieldChar c = true := by decide

theorem jsDiv100_plain (n : Nat) :
    ∀ c ∈ (jsDiv100 n).toList, plainFieldChar c = true := by
  simp only [jsDiv100]
  split
  · exact decimalStr_plain _
  · split
    · exact string_plain_append (string_plain_append (decimalStr_plain _) dot_plain)
        (decimalStr_plain _)
    · split
      · exact string_plain_append (string_plain_append (decimalStr_plain _) dotZero_plain)
          (decimalStr_plain _)
      · exact string_plain_append (string_plain_append (decimalStr_plain _) dot_plain)
          (decimalStr_plain _)

theorem statusText_plain (s : OrderStatus) :
    ∀ c ∈ (statusText s).toList, plainFieldChar c = true := by
  cases s <;> decide

theorem isoTimestamp_plain (t : Nat) :
    ∀ c ∈ (isoTimestamp t).toList, plainFieldChar c = true :=
  string_plain_append (decimalStr_plain t) (by decide)

theorem plain_unquoted {c : Char} (h : plainFieldChar c = true) :
    unquotedChar c = true := by
  simp only [plainFieldChar, Bool.and_eq_true] at h
  simp only [unquotedChar, Bool.and_eq_true]
  exact ⟨h.1.1, h.2⟩

theorem plain_ne_quote {c : Char} (h : plainFieldChar c = true) : c ≠ '\"' := by
  simp only [plainFieldChar, Bool.and_eq_true, Bool.not_eq_true',
    decide_eq_false_iff_not] at h
  exact h.1.2

theorem takeWhile_stop {p : Char → Bool} (f : List Char) (a : Char) (rest : List Char)
    (hf : ∀ c ∈ f, p c = true) (ha : p a = false) :
    (f ++ a :: rest).takeWhile p = f ∧ (f ++ a :: rest).dropWhile p = a :: rest := by
  induction f with
  | nil => simp [List.takeWhile_cons, List.dropWhile_cons, ha]
  | cons c cs ih =>
      have hc := hf c (List.mem_cons_self _ _)
      obtain ⟨ht, hd⟩ := ih (fun x hx => hf x (List.mem_cons_of_mem _ hx))
      simp [List.takeWhile_cons, List.dropWhile_cons, hc, ht, hd]

theorem parseField_unquoted (f : List Char) (a : Char) (rest : List Char)
    (hf : ∀ c ∈ f, plainFieldChar c = true) (ha : unquotedChar a = false) :
    parseField (f ++ a :: rest) = (f, a :: rest) := by
  have hforall : ∀ c ∈ f, unquotedChar c = true :=
    fun c hc => plain_unquoted (hf c hc)
  cases f with
  | nil =>
      have hq : a ≠ '\"' := by
        intro hh
        subst hh
        exact absurd ha (by decide)
      obtain ⟨ht, hd⟩ := takeWhile_stop [] a rest (by intro c hc; cases hc) ha
      simp only [List.nil_append] at ht hd ⊢
      rw [parseField, if_neg hq, ht, hd]
  | cons c cs =>
      have hcq : c ≠ '\"' := plain_ne_quote (hf c (List.mem_cons_self _ _))
      obtain ⟨ht, hd⟩ := takeWhile_stop (c :: cs) a rest hforall ha
      simp only [List.cons_append] at ht hd ⊢
      rw [parseField, if_neg hcq, ht, hd]

theorem parseQuoted_cons_ne {c : Char} (cs : List Char) (hc : c ≠ '\"') :
    parseQuoted (c :: cs) = (c :: (parseQuoted cs).1, (parseQuoted cs).2) := by
  rw [parseQuoted.eq_def]
  simp only [if_neg hc]

theorem parseQuoted_escQuotes (t rest : List Char) :
    parseQuoted (escQuotes t ++ '\"' :: ',' :: rest) = (t, ',' :: rest) := by
  induction t with
  | nil => rfl
  | cons c t' ih =>
      by_cases hc : c = '\"'
      · subst hc
        have he : escQuotes ('\"' :: t') = '\"' :: '\"' :: escQuotes t' := by
          simp [escQuotes]
        rw [he, List.cons_append, List.cons_append]
        have hstep : parseQuoted ('\"' :: '\"' :: (escQuotes t' ++ '\"' :: ',' :: rest)) =
            ('\"' :: (parseQuoted (escQuotes t' ++ '\"' :: ',' :: rest)).1,
             (parseQuoted (escQuotes t' ++ '\"' :: ',' :: rest)).2) := rfl
        rw [hstep, ih]
      · have he : escQuotes (c :: t') = c :: escQuotes t' := by
          simp [escQuotes, hc]
        rw [he, List.cons_append, parseQuoted_cons_ne _ hc, ih]

theorem parseFieldsAux_unquoted (fuel : Nat) (f rest : List Char)
    (hf : ∀ c ∈ f, plainFieldChar c = true) :
    parseFieldsAux (fuel + 1) (f ++ ',' :: rest) = f :: parseFieldsAux fuel rest := by
  simp only [parseFieldsAux]
  rw [parseField_unquoted f ',' rest hf (by decide)]
  rfl

theorem parseFieldsAux_quoted (fuel : Nat) (t rest : List Char) :
    parseFieldsAux (fuel + 1) ('\"' :: (escQuotes t ++ '\"' :: ',' :: rest))
      = t :: parseFieldsAux fuel rest := by
  simp only [parseFieldsAux]
  have hfield : parseField ('\"' :: (escQuotes t ++ '\"' :: ',' :: rest)) =
      parseQuoted (escQuotes t ++ '\"' :: ',' :: rest) := by
    rw [parseField, if_pos rfl]
  rw [hfield, parseQuoted_escQuotes]
  rfl

theorem parseFieldsAux_final (fuel : Nat) (f : List Char)
    (hf : ∀ c ∈ f, plainFieldChar c = true) :
    parseFieldsAux (fuel + 1) (f ++ ['\n']) = [f] := by
  simp only [parseFieldsAux]
  rw [show f ++ ['\n'] = f ++ '\n' :: [] from rfl,
    parseField_unquoted f '\n' [] hf (by decide)]
  rfl

theorem parseRow8 (k : Nat) (f0 f1 t f3 f4 f5 f6 f7 : List Char)
    (h0 : ∀ c ∈ f0, plainFieldChar c = true)
    (h1 : ∀ c ∈ f1, plainFieldChar c = true)
    (h3 : ∀ c ∈ f3, plainFieldChar c = true)
    (h4 : ∀ c ∈ f4, plainFieldChar c = true)
    (h5 : ∀ c ∈ f5, plainFieldChar c = true)
    (h6 : ∀ c ∈ f6, plainFieldChar c = true)
    (h7 : ∀ c ∈ f7, plainFieldChar c = true) :
    parseFieldsAux (k + 8)
      (f0 ++ ',' :: (f1 ++ ',' :: ('\"' :: (escQuotes t ++ '\"' :: ',' ::
        (f3 ++ ',' :: (f4 ++ ',' :: (f5 ++ ',' :: (f6 ++ ',' ::
          (f7 ++ ['\n'])))))))))
      = [f0, f1, t, f3, f4, f5, f6, f7] := by
  rw [show k + 8 = (k + 7) + 1 from rfl, parseFieldsAux_unquoted _ _ _ h0]
  rw [show k + 7 = (k + 6) + 1 from rfl, parseFieldsAux_unquoted _ _ _ h1]
  rw [show k + 6 = (k + 5) + 1 from rfl, parseFieldsAux_quoted]
  rw [show k + 5 = (k + 4) + 1 from rfl, parseFieldsAux_unquoted _ _ _ h3]
  rw [show k + 4 = (k + 3) + 1 from rfl, parseFieldsAux_unquoted _ _ _ h4]
  rw [show k + 3 = (k + 2) + 1 from rfl, parseFieldsAux_unquoted _ _ _ h5]
  rw [show k + 2 = (k + 1) + 1 from rfl, parseFieldsAux_unquoted _ _ _ h6]
  rw [show k + 1 = k + 1 from rfl, parseFieldsAux_final _ _ h7]

/-! ## Characters of a valid email survive the unescaped CSV field -/

theorem alphanum_plain {c : Char} (h : c.isAlphanum = true) :
    plainFieldChar c = true := by
  by_cases h1 : c = ','
  · subst h1; exact absurd h (by decide)
  · by_cases h2 : c = '\"'
    · subst h2; exact absurd h (by decide)
    · by_cases h3 : c = '\n'
      · subst h3; exact absurd h (by decide)
      · simp [plainFieldChar, h1, h2, h3]

theorem alpha_plain {c : Char} (h : c.isAlpha = true) : plainFieldChar c = true :=
  alphanum_plain (by simp [Char.isAlphanum, h])

theorem emailLocalChar_plain {c : Char} (h : emailLocalChar c = true) :
    plainFieldChar c = true := by
  simp only [emailLocalChar, Bool.or_eq_true, decide_eq_true_eq] at h
  rcases h with ((((h | h) | h) | h) | h) | h
  · exact alphanum_plain h
  · subst h; decide
  · subst h; decide
  · subst h; decide
  · subst h; decide
  · subst h; decide

theorem splitOnChar_ne_nil (sep : Char) (cs : List Char) :
    splitOnChar sep cs ≠ [] := by
  induction cs with
  | nil => simp [splitOnChar]
  | cons c cs ih =>
      rw [splitOnChar]
      by_cases hc : c = sep
      · simp [hc]
      · rw [if_neg hc]
        cases hr : splitOnChar sep cs with
        | nil => simp
        | cons f rest => simp

theorem splitOnChar_cons_ne (sep c : Char) (cs : List Char) (hc : ¬ c = sep)
    (f : List Char) (rest : List (List Char))
    (hr : splitOnChar sep cs = f :: rest) :
    splitOnChar sep (c :: cs) = (c :: f) :: rest := by
  rw [splitOnChar, if_neg hc, hr]

theorem splitOnChar_cons_eq (sep : Char) (cs : List Char) :
    splitOnChar sep (sep :: cs) = [] :: splitOnChar sep cs := by
  rw [splitOnChar, if_pos rfl]

theorem mem_splitOnChar (sep : Char) {cs : List Char} {c : Char} (hc : c ∈ cs) :
    c = sep ∨ ∃ p ∈ splitOnChar sep cs, c ∈ p := by
  induction cs with
  | nil => cases hc
  | cons d ds ih =>
      by_cases hd : d = sep
      · subst hd
        rw [splitOnChar_cons_eq]
        rcases List.mem_cons.mp hc with rfl | hmem
        · exact Or.inl rfl
        · rcases ih hmem with h' | ⟨p, hp, hcp⟩
          · exact Or.inl h'
          · exact Or.inr ⟨p, List.mem_cons_of_mem _ hp, hcp⟩
      · cases hr : splitOnChar sep ds with
        | nil => exact absurd hr (splitOnChar_ne_nil sep ds)
        | cons f rest =>
            rw [splitOnChar_cons_ne sep d ds hd f rest hr]
            rcases List.mem_cons.mp hc with rfl | hmem
            · exact Or.inr ⟨c :: f, List.mem_cons_self _ _, List.mem_cons_self _ _⟩
            · rcases ih hmem with h' | ⟨p, hp, hcp⟩
              · exact Or.inl h'
              · rw [hr] at hp
                rcases List.mem_cons.mp hp with rfl | hp'
                · exact Or.inr ⟨d :: p, List.mem_cons_self _ _,
                    List.mem_cons_of_mem _ hcp⟩
                · exact Or.inr ⟨p, List.mem_cons_of_mem _ hp', hcp⟩

theorem emailLabel_plain {l : List Char} (h : emailLabelOk l = true) :
    ∀ c ∈ l, plainFieldChar c = true := by
  intro c hc
  cases l with
  | nil => cases hc
  | cons c0 cs =>
      simp only [emailLabelOk, Bool.and_eq_true] at h
      rcases List.mem_cons.mp hc with rfl | hmem
      · exact alphanum_plain h.1
      · have := List.all_eq_true.mp h.2 c hmem
        simp only [Bool.or_eq_true, decide_eq_true_eq] at this
        rcases this with h' | h'
        · exact alphanum_plain h'
        · subst h'; decide

theorem emailTld_plain {l : List Char} (h : emailTldOk l = true) :
    ∀ c ∈ l, plainFieldChar c = true := by
  intro c hc
  simp only [emailTldOk, Bool.and_eq_true] at h
  exact alpha_plain (List.all_eq_true.mp h.2 c hc)

theorem emailDomain_plain {d : List Char} (h : emailDomainOk d = true) :
    ∀ c ∈ d, plainFieldChar c = true := by
  intro c hc
  rcases mem_splitOnChar '.' hc with rfl | ⟨p, hp, hcp⟩
  · decide
  · unfold emailDomainOk at h
    cases hrev : (splitOnChar '.' d).reverse with
    | nil => rw [hrev] at h; exact absurd h (by simp)
    | cons tld rest =>
        rw [hrev] at h
        simp only [Bool.and_eq_true] at h
        obtain ⟨⟨hne, htld⟩, hlabels⟩ := h
        have hp' : p ∈ tld :: rest := by
          rw [← hrev]; exact List.mem_reverse.mpr hp
        rcases List.mem_cons.mp hp' with rfl | hpr
        · exact emailTld_plain htld c hcp
        · exact emailLabel_plain (List.all_eq_true.mp hlabels p hpr) c hcp

theorem emailOk_plain {s : String} (h : emailOk s = true) :
    ∀ c ∈ s.toList, plainFieldChar c = true := by
  intro c hc
  unfold emailOk at h
  cases hsp : splitOnChar '@' s.toList with
  | nil => rw [hsp] at h; exact absurd h (by simp)
  | cons l ls =>
      cases ls with
      | nil => rw [hsp] at h; exact absurd h (by simp)
      | cons d ds =>
          cases ds with
          | cons x xs => rw [hsp] at h; exact absurd h (by simp)
          | nil =>
              rw [hsp] at h
              simp only [Bool.and_eq_true] at h
              obtain ⟨⟨⟨⟨hdot, hdd⟩, hlast⟩, hlocal⟩, hdom⟩ := h
              rcases mem_splitOnChar '@' hc with rfl | ⟨p, hp, hcp⟩
              · decide
              · rw [hsp] at hp
                rcases List.mem_cons.mp hp with rfl | hp'
                · exact emailLocalChar_plain (List.all_eq_true.mp hlocal c hcp)
                · rcases List.mem_cons.mp hp' with rfl | hp''
                  · exact emailDomain_plain hdom c hcp
                  · cases hp''

theorem strMk_toList (s : String) : String.mk s.toList = s := rfl

theorem csvRow_toList (o : Order) :
    (csvRow o).toList =
      (decimalStr o.id).toList ++ ',' :: (o.customerEmail.toList ++ ',' ::
        ('\"' :: (escQuotes o.topic.toList ++ '\"' :: ',' ::
          ((decimalStr o.wordCount).toList ++ ',' ::
            ((statusText o.status).toList ++ ',' ::
              ((jsDiv100 o.price).toList ++ ',' ::
                ((jsDiv100 o.apiCost).toList ++ ',' ::
                  ((isoTimestamp o.createdAt).toList ++ ['\n'])))))))) := by
  have l1 : (",").toList = [','] := rfl
  have l2 : (",\"").toList = [',', '\"'] := rfl
  have l3 : ("\",").toList = ['\"', ','] := rfl
  have l4 : ("\n").toList = ['\n'] := rfl
  simp [csvRow, strToList_append, strToList_mk, l1, l2, l3, l4, List.append_assoc]

/-- C8 (amended): the export escapes quote and comma characters only in the
topic field (quotes doubled inside a quoted field); the email field is
written unescaped, but every order whose email passes the creation-time
email validation (which admits no comma, quote or newline) still yields a
row that parses back to the original rendered field values — in particular
the email (field 1) and the topic (field 2) are recovered exactly. -/
theorem csvRow_roundTrip (o : Order) (he : emailOk o.customerEmail = true) :
    parseCsvRow (csvRow o) =
      [decimalStr o.id, o.customerEmail, o.topic, decimalStr o.wordCount,
       statusText o.status, jsDiv100 o.price, jsDiv100 o.apiCost,
       isoTimestamp o.createdAt] := by
  have hemail := emailOk_plain he
  obtain ⟨k, hk⟩ : ∃ k, (csvRow o).toList.length + 1 = k + 8 :=
    ⟨(csvRow o).toList.length - 7, by
      rw [csvRow_toList]
      simp [List.length_append]
      omega⟩
  unfold parseCsvRow
  rw [hk, csvRow_toList]
  rw [parseRow8 k _ _ _ _ _ _ _ _ (decimalStr_plain _) hemail (decimalStr_plain _)
    (statusText_plain _) (jsDiv100_plain _) (jsDiv100_plain _) (isoTimestamp_plain _)]
  simp only [List.map_cons, List.map_nil, strMk_toList]

/-! ## Route computation lemmas -/

theorem handleCompleted_eq (st : MemStorage) (id : Nat) (ref : String)
    {o : Order} (h : getOrder st id = some o) :
    stripeWebhook (.ok (.checkoutSessionCompleted (some id) ref)) st =
      { resp := { status := 200, body := "received" }
        st := (updateOrder st id { stripePaymentIntentId := some ref }).2
        emails := [{ recipient := o.customerEmail
                     subject := "Order Received - Your Content is Being Generated"
                     template := "received" }]
        processTriggered := true } := by
  simp only [stripeWebhook, handleCheckoutSessionCompleted, h]

theorem getOrder_createOrder_self {st : MemStorage} (ins : InsertOrder)
    (hwf : WFStorage st) :
    getOrder (createOrder st ins).2 st.orderIdCounter = some (createOrder st ins).1 := by
  simp only [getOrder]
  rw [createOrder_orders ins hwf, List.find?_append]
  have hnone : st.orders.find? (fun x => x.id = st.orderIdCounter) = none := by
    rw [List.find?_eq_none]
    intro x hx
    have := hwf x hx
    simp only [decide_eq_true_eq]
    omega
  rw [hnone]
  have hid : (createOrder st ins).1.id = st.orderIdCounter := rfl
  simp [List.find?, hid]

/-! ## Claim theorems -/

/-- C6 (confirmed): when signature verification fails, the webhook returns
400 immediately: the store is untouched, no notification is attempted, no
processing is dispatched, and (structurally) no order lookup is reached. -/
theorem webhook_rejects_unverified (e : String) (st : MemStorage) :
    stripeWebhook (.error e) st =
      { resp := { status := 400, body := "Webhook Error: " ++ e }
        st := st, emails := [], processTriggered := false } := rfl

/-- C2 (amended): `failed` is terminal under every operation sequence, and a
`complete` order can only remain `complete` or move to `failed` (the
`payment_intent.payment_failed` webhook case sets `failed` without checking
the current status, which the counterexample exhibits); no operation ever
moves a `complete` or `failed` order back to `pending` or `processing`. -/
theorem terminal_statuses_amended (cfg : Config) (st : MemStorage) (id : Nat)
    (o : Order) (ops : List Op) (hwf : WFStorage st)
    (h : getOrder st id = some o)
    (hterm : o.status = .complete ∨ o.status = .failed) :
    ∃ o', getOrder (runOps cfg st ops) id = some o' ∧
      (o'.status = .complete ∨ o'.status = .failed) ∧
      (o.status = .failed → o'.status = .failed) :=
  status_run cfg ops hwf h hterm

/-- C2 (witness): the amended terminality theorem applied to the concrete
completed-order store and a concrete operation sequence. -/
theorem terminal_statuses_amended_witness :
    WFStorage completeOrderStore ∧
    getOrder completeOrderStore 1 = some { mkSeedOrder 1 with
      status := .complete, stripePaymentIntentId := "pi_1"
      content := "Finished article.", apiCost := 120 } ∧
    ∃ o', getOrder (runOps defaultConfig completeOrderStore
        [.tick, .processOp 1 (.success "late text" 7)]) 1 = some o' ∧
      (o'.status = .complete ∨ o'.status = .failed) ∧
      (({ mkSeedOrder 1 with
          status := .complete, stripePaymentIntentId := "pi_1"
          content := "Finished article.", apiCost := 120 } : Order).status = .failed →
        o'.status = .failed) :=
  ⟨by decide, by decide,
    terminal_statuses_amended defaultConfig completeOrderStore 1 _
      [.tick, .processOp 1 (.success "late text" 7)] (by decide) (by decide)
      (by decide)⟩

/-- C2 (counterexample): a `payment_intent.payment_failed` event whose payment
reference matches a `complete` order moves it to `failed`, so `Complete` is
not terminal as claimed. -/
theorem complete_not_terminal_counterexample :
    (getOrder completeOrderStore 1).map Order.status = some .complete ∧
    (getOrder c2FailedResult.st 1).map Order.status = some .failed := by decide

/-- C5 (amended): over every operation sequence from the initial store in
which each successful generation reports non-empty content and a non-zero
cost, every stored order has `content` and `apiCost` either both absent
(`MemStorage`'s sentinels `""` and `0`, which it writes at creation) or both
present: the two fields are only ever written together. -/
theorem contentCost_paired_amended (cfg : Config) (ops : List Op)
    (hg : ∀ op ∈ ops, goodGen op) :
    contentCostPaired (runOps cfg initialStorage ops) :=
  paired_run cfg ops (fun o ho => absurd ho (List.not_mem_nil o)) hg

/-- C5 (witness): the pairing invariant evaluated over a concrete healthy
trace (create, pay, process with non-empty content and non-zero cost). -/
theorem contentCost_paired_amended_witness :
    (∀ op ∈ ([.createOp "solar panels" 500 "a@b.com", .tick,
        .webhookOp (.ok (.checkoutSessionCompleted (some 1) "pi_9")), .tick,
        .processOp 1 (.success "Done." 120)] : List Op), goodGen op) ∧
    contentCostPaired (runOps defaultConfig initialStorage
      [.createOp "solar panels" 500 "a@b.com", .tick,
       .webhookOp (.ok (.checkoutSessionCompleted (some 1) "pi_9")), .tick,
       .processOp 1 (.success "Done." 120)]) :=
  ⟨by decide, contentCost_paired_amended defaultConfig _ (by decide)⟩

/-- C5 (counterexample): a reachable trace in which generation succeeds with
non-empty content but a reported cost of zero (the code maps missing usage
to zero cost) leaves the order with `content` present and `apiCost` absent,
so the fields are not "both absent or both present". -/
theorem contentCost_unpaired_counterexample :
    (getOrder c5TraceStore 1).map (fun o => (o.content, o.apiCost))
      = some ("Generated article text.", 0) ∧
    ("Generated article text." : String) ≠ "" := by
  constructor
  · decide
  · decide

/-- C7 (amended): listing output is ordered newest-created-first — every
returned page is non-increasing in `createdAt`. Pagination itself is a plain
offset slice of the snapshot sorted at request time, so it is not stable
under concurrent inserts (counterexample). -/
theorem listing_sorted_amended (st : MemStorage) (options : ListOptions) :
    ((getAllOrders st options).1).Pairwise (fun a b => b.createdAt ≤ a.createdAt) :=
  (pairwise_sortNewestFirst _).sublist
    ((List.take_sublist _ _).trans (List.drop_sublist _ _))

/-- C7 (counterexample): with fifteen stored orders, order 6 is on page 1
(limit 10); after a sixteenth order is inserted, order 6 appears on page 2
(and no longer on page 1) — the insert shifted the page assignment of an
already-stored order. -/
theorem pagination_shift_counterexample :
    ((getAllOrders fifteenOrderStore { page := 1, limit := 10 }).1.map Order.id)
      = [15, 14, 13, 12, 11, 10, 9, 8, 7, 6] ∧
    ((getAllOrders sixteenOrderStore { page := 1, limit := 10 }).1.map Order.id)
      = [16, 15, 14, 13, 12, 11, 10, 9, 8, 7] ∧
    ((getAllOrders sixteenOrderStore { page := 2, limit := 10 }).1.map Order.id)
      = [6, 5, 4, 3, 2, 1] := by
  refine ⟨by decide, by decide, by decide⟩

/-- C9 (confirmed): `sendEmail` never raises to its caller — for every
environment, message and delivery outcome it returns normally; when SMTP is
unconfigured outside production it is a no-op that still returns
successfully, and a transport error is caught and only logged. -/
theorem sendEmail_never_raises (env : EnvConfig) (msg : EmailMsg)
    (outcome : DeliveryOutcome) :
    (sendEmail env msg outcome).isOk = true ∧
    ((env.nodeEnv ≠ "production" ∧
        (env.smtpHost = "" ∨ env.smtpUser = "" ∨ env.smtpPassword = "")) →
      sendEmail env msg outcome = .ok .skippedDev) ∧
    (∀ m : String, sendEmail env msg (.transportError m) = .ok .skippedDev ∨
      sendEmail env msg (.transportError m) = .ok (.failureLogged m)) := by
  refine ⟨?_, ?_, ?_⟩
  · unfold sendEmail
    split
    · rfl
    · cases outcome <;> rfl
  · intro hc
    unfold sendEmail
    rw [if_pos hc]
  · intro m
    unfold sendEmail
    split
    · exact Or.inl rfl
    · exact Or.inr rfl

/-- C9 (witness): the no-op conjunct discharged at a concrete development
environment with unconfigured SMTP. -/
theorem sendEmail_never_raises_witness :
    (({ nodeEnv := "development", smtpHost := "", smtpUser := ""
        smtpPassword := "" } : EnvConfig).nodeEnv ≠ "production" ∧
      (({ nodeEnv := "development", smtpHost := "", smtpUser := ""
          smtpPassword := "" } : EnvConfig).smtpHost = "" ∨
        ({ nodeEnv := "development", smtpHost := "", smtpUser := ""
           smtpPassword := "" } : EnvConfig).smtpUser = "" ∨
        ({ nodeEnv := "development", smtpHost := "", smtpUser := ""
           smtpPassword := "" } : EnvConfig).smtpPassword = "")) ∧
    sendEmail { nodeEnv := "development", smtpHost := "", smtpUser := ""
                smtpPassword := "" }
      { recipient := "a@b.com", subject := "s", template := "received" }
      .delivered = .ok .skippedDev :=
  ⟨⟨by decide, Or.inl rfl⟩,
    (sendEmail_never_raises _ _ _).2.1 ⟨by decide, Or.inl rfl⟩⟩

/-- C10 (code_bug evidence): after a single `GET /api/settings`, the stored
settings hold the mask strings instead of the original secrets — the masking
mutates the shared stored settings object, so a subsequent read observes
masked values. -/
theorem settings_read_masks_store :
    secretsStore.settings.apiKeys.openaiApiKey = "sk-live-123" ∧
    secretsStore.settings.email.smtpPassword = "hunter2" ∧
    (getSettings (getSettingsRoute secretsStore).2).apiKeys.openaiApiKey
      = apiKeyMask ∧
    (getSettings (getSettingsRoute secretsStore).2).email.smtpPassword
      = smtpPasswordMask ∧
    apiKeyMask ≠ "sk-live-123" ∧ smtpPasswordMask ≠ "hunter2" := by
  refine ⟨rfl, rfl, by decide, by decide, by decide, by decide⟩

/-- C1 (amended): the `checkout.session.completed` handler never inspects the
order's status: every delivery against an existing order records the payment
reference, attempts an `OrderReceived` notification and dispatches
processing. Delivering the same event twice therefore produces two
notification attempts (not one); the recorded reference is the event's
reference and the handler itself never changes the status field. -/
theorem payment_event_unconditional_amended (st : MemStorage) (id : Nat)
    (ref : String) (o : Order) (h : getOrder st id = some o) :
    (((webhookTwice st id ref).1.emails ++ (webhookTwice st id ref).2.emails).filter
        (fun e => e.template = "received")).length = 2 ∧
    (webhookTwice st id ref).1.processTriggered = true ∧
    (webhookTwice st id ref).2.processTriggered = true ∧
    ∃ o', getOrder (webhookTwice st id ref).2.st id = some o' ∧
      o'.stripePaymentIntentId = ref ∧ o'.status = o.status := by
  have e1 := handleCompleted_eq st id ref h
  have h1 : getOrder
      (stripeWebhook (.ok (.checkoutSessionCompleted (some id) ref)) st).st id
      = some (applyUpdate o { stripePaymentIntentId := some ref } st.now) := by
    rw [e1]
    exact getOrder_updateOrder_self _ h
  have e2 := handleCompleted_eq
    (stripeWebhook (.ok (.checkoutSessionCompleted (some id) ref)) st).st id ref h1
  have hw1 : (webhookTwice st id ref).1
      = stripeWebhook (.ok (.checkoutSessionCompleted (some id) ref)) st := rfl
  have hw2 : (webhookTwice st id ref).2
      = stripeWebhook (.ok (.checkoutSessionCompleted (some id) ref))
          (stripeWebhook (.ok (.checkoutSessionCompleted (some id) ref)) st).st := rfl
  refine ⟨?_, ?_, ?_, ?_⟩
  · rw [hw1, hw2, e2, e1]
    simp
  · rw [hw1, e1]
  · rw [hw2, e2]
  · rw [hw2, e2]
    refine ⟨applyUpdate (applyUpdate o { stripePaymentIntentId := some ref } st.now)
      { stripePaymentIntentId := some ref }
      (stripeWebhook (.ok (.checkoutSessionCompleted (some id) ref)) st).st.now,
      ?_, rfl, rfl⟩
    exact getOrder_updateOrder_self _ h1

/-- C1 (witness): the amended behavior at the concrete one-order store. -/
theorem payment_event_unconditional_amended_witness :
    getOrder oneOrderStore 1 = some (mkSeedOrder 1) ∧
    ((((webhookTwice oneOrderStore 1 "pi_1").1.emails
        ++ (webhookTwice oneOrderStore 1 "pi_1").2.emails).filter
          (fun e => e.template = "received")).length = 2 ∧
      (webhookTwice oneOrderStore 1 "pi_1").1.processTriggered = true ∧
      (webhookTwice oneOrderStore 1 "pi_1").2.processTriggered = true ∧
      ∃ o', getOrder (webhookTwice oneOrderStore 1 "pi_1").2.st 1 = some o' ∧
        o'.stripePaymentIntentId = "pi_1" ∧ o'.status = (mkSeedOrder 1).status) :=
  ⟨by decide,
    payment_event_unconditional_amended oneOrderStore 1 "pi_1" (mkSeedOrder 1)
      (by decide)⟩

/-- C1 (counterexample): delivering the same `PaymentSucceeded` event twice
against the same order yields two `OrderReceived` notification attempts, and
the second delivery — against an order no longer in the `Created` state —
still mutates the store (`updatedAt` advances), so it is neither a no-op nor
a single-notification outcome as claimed. -/
theorem duplicate_payment_two_notifications_counterexample :
    ((c1FirstResult.emails ++ c1SecondResult.emails).filter
        (fun e => e.template = "received")).length = 2 ∧
    (getOrder oneOrderStore 1).map specState = some .Created ∧
    (getOrder c1FirstResult.st 1).map specState = some .PaymentConfirmed ∧
    (getOrder c1FirstResult.st 1).map Order.updatedAt = some 1 ∧
    (getOrder c1SecondResult.st 1).map Order.updatedAt = some 2 := by decide

/-- C3 (amended): `/process` no-ops (400, no store change, no emails, no
generation call) exactly when the order's status is not `pending` — not when
the spec-level state is not `PaymentConfirmed` — and invoking it twice in
immediate succession yields exactly one Generation-Client invocation when the
order starts `pending`, and none otherwise. -/
theorem processOrder_pending_gate_amended (st : MemStorage) (id : Nat)
    (gen gen2 : GenOutcome) (o : Order) (h : getOrder st id = some o) :
    (o.status ≠ .pending →
      processOrderRoute st id gen =
        { resp := { status := 400, body := "Order is already " ++ statusText o.status }
          st := st, emails := [], genCalls := 0 }) ∧
    ((processTwice st id gen gen2).1.genCalls + (processTwice st id gen gen2).2.genCalls
      = if o.status = .pending then 1 else 0) := by
  have hno : ∀ (S : MemStorage) (oo : Order) (g : GenOutcome), getOrder S id = some oo →
      oo.status ≠ .pending →
      processOrderRoute S id g =
        { resp := { status := 400, body := "Order is already " ++ statusText oo.status }
          st := S, emails := [], genCalls := 0 } := by
    intro S oo g hS hnp
    simp only [processOrderRoute, hS]
    rw [if_pos hnp]
  have ha : (processTwice st id gen gen2).1 = processOrderRoute st id gen := rfl
  have hb : (processTwice st id gen gen2).2
      = processOrderRoute (processOrderRoute st id gen).st id gen2 := rfl
  refine ⟨hno st o gen h, ?_⟩
  by_cases hp : o.status = .pending
  · rw [if_pos hp]
    have hnnp : ¬ o.status ≠ .pending := fun hh => hh hp
    cases gen with
    | success c k' =>
        have h1 := getOrder_updateOrder_self { status := some OrderStatus.processing } h
        have h2 := getOrder_updateOrder_self
          { status := some OrderStatus.complete, content := some c, apiCost := some k' } h1
        have hroute : processOrderRoute st id (.success c k') =
            { resp := { status := 200, body := "Order processed successfully" }
              st := (updateOrder (updateOrder st id { status := some .processing }).2 id
                { status := some .complete, content := some c, apiCost := some k' }).2
              emails := [{ recipient := o.customerEmail
                           subject := "Your content order is being processed"
                           template := "in-progress" },
                         { recipient := o.customerEmail
                           subject := "Your content is ready"
                           template := "completed" }]
              genCalls := 1 } := by
          simp only [processOrderRoute, h]
          rw [if_neg hnnp]
        have hg1 : (processOrderRoute st id (.success c k')).genCalls = 1 := by
          rw [hroute]
        have hg2 : (processOrderRoute (processOrderRoute st id (.success c k')).st id
            gen2).genCalls = 0 := by
          have hst : (processOrderRoute st id (.success c k')).st
              = (updateOrder (updateOrder st id { status := some .processing }).2 id
                  { status := some .complete, content := some c, apiCost := some k' }).2 := by
            rw [hroute]
          rw [hst, hno _ _ gen2 h2 (by intro hh; cases hh)]
        rw [ha, hb, hg1, hg2]
    | failure m =>
        have h1 := getOrder_updateOrder_self { status := some OrderStatus.processing } h
        have h2 := getOrder_updateOrder_self { status := some OrderStatus.failed } h1
        have hroute : processOrderRoute st id (.failure m) =
            { resp := { status := 500, body := "Content generation failed" }
              st := (updateOrder (updateOrder st id { status := some .processing }).2 id
                { status := some .failed }).2
              emails := [{ recipient := o.customerEmail
                           subject := "Your content order is being processed"
                           template := "in-progress" },
                         { recipient := o.customerEmail
                           subject := "There was an issue with your content order"
                           template := "failed" }]
              genCalls := 1 } := by
          simp only [processOrderRoute, h]
          rw [if_neg hnnp]
        have hg1 : (processOrderRoute st id (.failure m)).genCalls = 1 := by
          rw [hroute]
        have hg2 : (processOrderRoute (processOrderRoute st id (.failure m)).st id
            gen2).genCalls = 0 := by
          have hst : (processOrderRoute st id (.failure m)).st
              = (updateOrder (updateOrder st id { status := some .processing }).2 id
                  { status := some .failed }).2 := by
            rw [hroute]
          rw [hst, hno _ _ gen2 h2 (by intro hh; cases hh)]
        rw [ha, hb, hg1, hg2]
  · rw [if_neg hp]
    have h400 := hno st o gen h hp
    have hg1 : (processOrderRoute st id gen).genCalls = 0 := by rw [h400]
    have hg2 : (processOrderRoute (processOrderRoute st id gen).st id gen2).genCalls
        = 0 := by
      have hst : (processOrderRoute st id gen).st = st := by rw [h400]
      rw [hst, hno st o gen2 h hp]
    rw [ha, hb, hg1, hg2]

/-- C3 (witness): the amended `/process` contract at the one-order store —
the no-op clause at a completed order and the exactly-once clause at a
pending order. -/
theorem processOrder_pending_gate_amended_witness :
    (getOrder completeOrderStore 1).map Order.status = some .complete ∧
    (processTwice oneOrderStore 1 (.success "text one" 10) (.success "text two" 20)).1.genCalls
        + (processTwice oneOrderStore 1 (.success "text one" 10)
            (.success "text two" 20)).2.genCalls
      = if (mkSeedOrder 1).status = .pending then 1 else 0 :=
  ⟨by decide,
    (processOrder_pending_gate_amended oneOrderStore 1 (.success "text one" 10)
      (.success "text two" 20) (mkSeedOrder 1) (by decide)).2⟩

/-- C3 (counterexample): a freshly created order is in spec state `Created`
(not `PaymentConfirmed`), yet `/process` is not a no-op on it — the
Generation Client is invoked once and the order advances to `complete`. -/
theorem processOrder_created_not_noop_counterexample :
    (getOrder oneOrderStore 1).map specState = some .Created ∧
    c3ProcessResult.genCalls = 1 ∧
    (getOrder c3ProcessResult.st 1).map Order.status = some .complete := by decide

/-- C4 (amended): a valid request creates the order in `pending` state with
`price = wordCount × pricePerWord` where `pricePerWord` is the Settings value
when it is non-zero and the config default `PRICE_PER_WORD_CENTS` when the
Settings value is zero (the `||` fallback); an out-of-bounds word count or
invalid email is rejected with 400 and the store is unchanged. -/
theorem createOrder_spec_amended (cfg : Config) (st : MemStorage)
    (topic : String) (wordCount : Nat) (customerEmail : String) :
    (createOrderValid topic wordCount customerEmail = true → WFStorage st →
      (createOrderRoute cfg st topic wordCount customerEmail).resp.status = 200 ∧
      (createOrderRoute cfg st topic wordCount customerEmail).orderId
        = some st.orderIdCounter ∧
      getOrder (createOrderRoute cfg st topic wordCount customerEmail).st
          st.orderIdCounter
        = some { id := st.orderIdCounter, status := .pending, topic := topic
                 wordCount := wordCount
                 price := wordCount * (if st.settings.pricing.pricePerWord = 0
                   then cfg.PRICE_PER_WORD_CENTS
                   else st.settings.pricing.pricePerWord)
                 apiCost := 0, content := "", customerEmail := customerEmail
                 stripePaymentIntentId := "", createdAt := st.now
                 updatedAt := st.now }) ∧
    ((wordCount < 100 ∨ 5000 < wordCount ∨ emailOk customerEmail = false) →
      (createOrderRoute cfg st topic wordCount customerEmail).resp.status = 400 ∧
      (createOrderRoute cfg st topic wordCount customerEmail).st = st) := by
  constructor
  · intro hv hwf
    have hroute : createOrderRoute cfg st topic wordCount customerEmail =
        { resp := { status := 200, body := "Order created successfully" }
          st := (createOrder st
            { topic := topic, wordCount := wordCount
              price := wordCount * (if (getSettings st).pricing.pricePerWord = 0
                then cfg.PRICE_PER_WORD_CENTS
                else (getSettings st).pricing.pricePerWord)
              customerEmail := customerEmail, stripePaymentIntentId := "" }).2
          orderId := some (createOrder st
            { topic := topic, wordCount := wordCount
              price := wordCount * (if (getSettings st).pricing.pricePerWord = 0
                then cfg.PRICE_PER_WORD_CENTS
                else (getSettings st).pricing.pricePerWord)
              customerEmail := customerEmail, stripePaymentIntentId := "" }).1.id } := by
      simp only [createOrderRoute]
      rw [if_pos hv]
    refine ⟨by rw [hroute], by rw [hroute]; rfl, ?_⟩
    rw [hroute]
    exact getOrder_createOrder_self _ hwf
  · intro hrej
    have hv : createOrderValid topic wordCount customerEmail = false := by
      cases hvt : createOrderValid topic wordCount customerEmail
      · rfl
      · exfalso
        simp only [createOrderValid, Bool.and_eq_true, decide_eq_true_eq] at hvt
        obtain ⟨⟨⟨h3, h100⟩, h5000⟩, hem⟩ := hvt
        rcases hrej with h' | h' | h'
        · omega
        · omega
        · rw [h'] at hem
          cases hem
    have hroute : createOrderRoute cfg st topic wordCount customerEmail =
        { resp := { status := 400, body := "Validation failed" }
          st := st, orderId := none } := by
      simp only [createOrderRoute]
      rw [if_neg (by simp [hv])]
    exact ⟨by rw [hroute], by rw [hroute]⟩

/-- C4 (witness): the amended creation contract at concrete inputs — a valid
request against the fresh store, and a rejected request with word count 50. -/
theorem createOrder_spec_amended_witness :
    (createOrderValid "solar panels" 100 "a@b.com" = true ∧ WFStorage initialStorage ∧
      (createOrderRoute defaultConfig initialStorage "solar panels" 100 "a@b.com").resp.status = 200 ∧
      (createOrderRoute defaultConfig initialStorage "solar panels" 100 "a@b.com").orderId
        = some initialStorage.orderIdCounter ∧
      getOrder (createOrderRoute defaultConfig initialStorage "solar panels" 100 "a@b.com").st
          initialStorage.orderIdCounter
        = some { id := initialStorage.orderIdCounter, status := .pending
                 topic := "solar panels", wordCount := 100
                 price := 100 * (if initialStorage.settings.pricing.pricePerWord = 0
                   then defaultConfig.PRICE_PER_WORD_CENTS
                   else initialStorage.settings.pricing.pricePerWord)
                 apiCost := 0, content := "", customerEmail := "a@b.com"
                 stripePaymentIntentId := "", createdAt := initialStorage.now
                 updatedAt := initialStorage.now }) ∧
    ((50 : Nat) < 100 ∧
      (createOrderRoute defaultConfig initialStorage "tiny" 50 "a@b.com").resp.status = 400 ∧
      (createOrderRoute defaultConfig initialStorage "tiny" 50 "a@b.com").st
        = initialStorage) :=
  ⟨⟨by decide, by decide,
    (createOrder_spec_amended defaultConfig initialStorage "solar panels" 100
      "a@b.com").1 (by decide) (by decide)⟩,
   ⟨by decide,
    (createOrder_spec_amended defaultConfig initialStorage "tiny" 50 "a@b.com").2
      (Or.inl (by decide))⟩⟩

/-- C4 (counterexample): with the Settings pricePerWord set to zero (reachable
via the unvalidated pricing PATCH), a valid 100-word order is created with
price 500 — `wordCount × config default` — rather than
`wordCount × current pricePerWord from Settings = 0`, so the claimed pricing
equation fails. -/
theorem createOrder_price_counterexample :
    zeroPriceStore.settings.pricing.pricePerWord = 0 ∧
    c4CreateResult.resp.status = 200 ∧
    (getOrder c4CreateResult.st 1).map Order.price = some 500 ∧
    100 * zeroPriceStore.settings.pricing.pricePerWord = 0 ∧
    (500 : Nat) ≠ 0 := by decide

/-- C8 (witness): the CSV round trip at a concrete order whose topic embeds
both a comma and quotes. -/
theorem csvRow_roundTrip_witness :
    emailOk ({ mkSeedOrder 1 with topic := "Solar, \"panels\"" } : Order).customerEmail
      = true ∧
    parseCsvRow (csvRow { mkSeedOrder 1 with topic := "Solar, \"panels\"" })
      = [decimalStr 1, "a@b.com", "Solar, \"panels\"", decimalStr 100,
         statusText .pending, jsDiv100 500, jsDiv100 0, isoTimestamp 1] :=
  ⟨by decide,
    csvRow_roundTrip { mkSeedOrder 1 with topic := "Solar, \"panels\"" } (by decide)⟩

/-- C8 (counterexample): the email field is written to the CSV unescaped, so
for an order record whose email embeds a comma the exported row does not
parse back to the original email — the second parsed field is the truncated
`"a"`. -/
theorem csv_email_unescaped_counterexample :
    commaEmailOrder.customerEmail = "a,b@c.com" ∧
    (parseCsvRow (csvRow commaEmailOrder)).get? 1 = some "a" ∧
    some ("a" : String) ≠ some commaEmailOrder.customerEmail := by decide

end WordMint
